import Mathlib

/-!
Verification development for the ideogram-api security pipeline
(src/utils.js and src/config.js).

The JavaScript functions are shallowly embedded as pure Lean functions.
External collaborators (the WHATWG URL constructor, DNS lookup, the
filesystem, axios, the image-size decoder, the system clock) are passed in
as explicit function parameters or value parameters, so each embedded
function is a pure function of its inputs and of the collaborator
behaviour.  Byte buffers are lists of Nat, strings are Lean strings
(character lists); all definitions are structurally recursive so that
concrete instances evaluate by kernel reduction.
-/

namespace Ideogram

/-! ### Basic character and string helpers -/

/-- ASCII lower-casing of a single character, modelling the effect of
JavaScript toLowerCase on the ASCII range (the only range exercised by
the hostnames and filenames in this development). -/
def lowerCh (c : Char) : Char :=
  if 'A' ≤ c ∧ c ≤ 'Z' then Char.ofNat (c.toNat + 32) else c

/-- String lower-casing, character by character. -/
def toLowerS (s : String) : String := ⟨s.data.map lowerCh⟩

/-- Boolean test that the string s starts with the string p
(the regex anchor ^p on a literal pattern p). -/
def startsWithS (s p : String) : Bool := p.data.isPrefixOf s.data

/-- Substring test on character lists: sub occurs contiguously in the list. -/
def containsSubL (sub : List Char) : List Char → Bool
  | [] => sub.isEmpty
  | c :: rest => sub.isPrefixOf (c :: rest) || containsSubL sub rest

/-- JavaScript String.prototype.includes. -/
def containsS (s sub : String) : Bool := containsSubL sub.data s.data

/-- Split a character list on a separator character; auxiliary with an
accumulator for the current chunk (kept reversed). -/
def splitOnChAux (sep : Char) (cur : List Char) : List Char → List (List Char)
  | [] => [cur.reverse]
  | c :: rest =>
    if c = sep then cur.reverse :: splitOnChAux sep [] rest
    else splitOnChAux sep (c :: cur) rest

/-- Split a character list on a separator character (JavaScript split of a
one-character separator: always returns at least one chunk). -/
def splitOnCh (sep : Char) (l : List Char) : List (List Char) := splitOnChAux sep [] l

/-- Decimal digits of a natural number, most significant first;
fuel-based so that the definition is structurally recursive and hence
kernel-reducible. -/
def natDigitsAux : Nat → Nat → List Char
  | 0, _ => []
  | fuel + 1, n =>
    if n < 10 then [Nat.digitChar n]
    else natDigitsAux fuel (n / 10) ++ [Nat.digitChar (n % 10)]

/-- Decimal digit characters of a natural number, most significant first. -/
def natDigits (n : Nat) : List Char := natDigitsAux (n + 1) n

/-- Left-pad the decimal digits of n with zeros to width w. -/
def padDigits (w n : Nat) : List Char :=
  List.replicate (w - (natDigits n).length) '0' ++ natDigits n

/-- Numeric value of a list of decimal digit characters. -/
def digitsVal (l : List Char) : Nat :=
  l.foldl (fun acc c => 10 * acc + (c.toNat - '0'.toNat)) 0

/-! ### IP address syntax (model of the Node net module checks) -/

/-- One dotted-quad octet as accepted by the Node net.isIPv4 regex:
one to three decimal digits, no leading zero (except the single digit 0),
value at most 255. -/
def validOctet (l : List Char) : Bool :=
  !l.isEmpty && l.all Char.isDigit &&
  (l.head? != some '0' || l == ['0']) &&
  digitsVal l ≤ 255

/-- Model of Node net.isIPv4: exactly four dot-separated valid octets. -/
def isIPv4 (s : String) : Bool :=
  match splitOnCh '.' s.data with
  | [a, b, c, d] => validOctet a && validOctet b && validOctet c && validOctet d
  | _ => false

/-- ASCII hexadecimal digit. -/
def isHexCh (c : Char) : Bool :=
  c.isDigit || ('a' ≤ c && c ≤ 'f') || ('A' ≤ c && c ≤ 'F')

/-- One IPv6 group: one to four hexadecimal digits. -/
def validSeg (l : List Char) : Bool :=
  decide (1 ≤ l.length) && decide (l.length ≤ 4) && l.all isHexCh

/-- Dotted-quad tail of an IPv6 address (same octet syntax as isIPv4). -/
def isV4TailL (l : List Char) : Bool :=
  match splitOnCh '.' l with
  | [a, b, c, d] => validOctet a && validOctet b && validOctet c && validOctet d
  | _ => false

/-- Number of 16-bit units contributed by a colon-split chunk list in which
every chunk must be a hexadecimal group except that the final chunk may be
a dotted quad (which counts as two units); none if some chunk is invalid. -/
def unitsCount : List (List Char) → Option Nat
  | [] => some 0
  | [last] =>
    if validSeg last then some 1
    else if isV4TailL last then some 2
    else none
  | seg :: rest =>
    if validSeg seg then (unitsCount rest).map (· + 1) else none

/-- Number of units of a chunk list in which every chunk must be a
hexadecimal group (a dotted quad may only appear at the end of the whole
address, so never left of the compressed run). -/
def unitsSegsOnly (parts : List (List Char)) : Option Nat :=
  if parts.all validSeg then some parts.length else none

/-- Does the character list contain a double colon. -/
def containsDC : List Char → Bool
  | [] => false
  | [_] => false
  | ':' :: ':' :: _ => true
  | _ :: rest => containsDC rest

/-- Split at the first double colon, returning the parts before and after. -/
def splitDC : List Char → Option (List Char × List Char)
  | [] => none
  | ':' :: ':' :: rest => some ([], rest)
  | c :: rest => (splitDC rest).map (fun p => (c :: p.1, p.2))

/-- Character allowed in an IPv6 zone identifier by the Node regex. -/
def isZoneCh (c : Char) : Bool :=
  c.isDigit || c.isAlpha || c = '-' || c = '.' || c = ':'

/-- Strip an optional percent-zone suffix, returning the address part;
none when the zone syntax is invalid. -/
def zoneSplitCheck (l : List Char) : Option (List Char) :=
  match splitOnCh '%' l with
  | [addr] => some addr
  | [addr, zone] => if !zone.isEmpty && zone.all isZoneCh then some addr else none
  | _ => none

/-- Model of Node net.isIPv6: eight 16-bit units, or a single double-colon
compression standing for at least one unit (a trailing dotted quad counts
as two units), with an optional zone suffix. -/
def isIPv6 (s : String) : Bool :=
  match zoneSplitCheck s.data with
  | none => false
  | some addr =>
    if containsDC addr then
      match splitDC addr with
      | none => false
      | some (lft, rgt) =>
        if containsDC rgt then false
        else
          let lu := if lft.isEmpty then some 0 else unitsSegsOnly (splitOnCh ':' lft)
          let ru := if rgt.isEmpty then some 0 else unitsCount (splitOnCh ':' rgt)
          match lu, ru with
          | some a, some b => decide (a + b ≤ 7)
          | _, _ => false
    else
      match unitsCount (splitOnCh ':' addr) with
      | some u => decide (u = 8)
      | none => false

/-! ### The IP classifier (utils.js isBlockedIP, lines 38 to 72) -/

/-- Effect of the replacement of the regex (leading open bracket or
trailing close bracket) by the empty string: drop one leading open
bracket and one trailing close bracket. -/
def stripBracketsL (l : List Char) : List Char :=
  let l1 := if l.head? = some '[' then l.tail else l
  if l1.getLast? = some ']' then l1.dropLast else l1

/-- Bracket stripping on strings. -/
def stripBrackets (s : String) : String := ⟨stripBracketsL s.data⟩

/-- The sixteen literal prefixes equivalent to the private class B regex
pattern 172 dot (1[6-9]|2[0-9]|3[0-1]) dot. -/
def classBPrefixes : List String :=
  ["172.16.", "172.17.", "172.18.", "172.19.", "172.20.", "172.21.",
   "172.22.", "172.23.", "172.24.", "172.25.", "172.26.", "172.27.",
   "172.28.", "172.29.", "172.30.", "172.31."]

/-- The blockedPatterns array of isBlockedIP, as anchored prefix tests
(each regex there is of the form caret literal, except the exact IPv6
loopback pattern). -/
def blockedPatternTest (s : String) : Bool :=
  startsWithS s "127." ||
  startsWithS s "10." ||
  classBPrefixes.any (fun p => startsWithS s p) ||
  startsWithS s "192.168." ||
  startsWithS s "169.254." ||
  startsWithS s "0." ||
  s == "::1" ||
  startsWithS s "fe80:" ||
  startsWithS s "fc00:" ||
  startsWithS s "fd00:"

/-- The isBlockedIP helper of utils.js: strip bracket notation, then the
localhost exact matches, the metadata exact matches, and the pattern
tests (the source returns true from the first matching stage; since every
stage returns true on match, this is the disjunction below). -/
def isBlockedIP (ip : String) : Bool :=
  let cleanIP := stripBrackets ip
  cleanIP == "localhost" || cleanIP == "127.0.0.1" || cleanIP == "::1" ||
  cleanIP == "metadata.google.internal" || cleanIP == "metadata" ||
  cleanIP == "169.254.169.254" ||
  blockedPatternTest cleanIP

/-! ### The URL validator (utils.js validateImageUrl, lines 85 to 171) -/

/-- Parse a run of one or more decimal digits (the regex piece backslash-d
plus, greedy, which is deterministic here because a digit is neither a dot
nor a close bracket); returns the digits and the rest. -/
def parseDigits (l : List Char) : Option (List Char × List Char) :=
  let d := l.takeWhile Char.isDigit
  if d.isEmpty then none else some (d, l.dropWhile Char.isDigit)

/-- Match the capture group piece of the mapped-literal regex: a dotted
quad of digit runs followed by a close bracket; returns the capture. -/
def matchQuadClose (l : List Char) : Option (List Char) := do
  let (d1, r1) ← parseDigits l
  match r1 with
  | '.' :: r1b => do
    let (d2, r2) ← parseDigits r1b
    match r2 with
    | '.' :: r2b => do
      let (d3, r3) ← parseDigits r2b
      match r3 with
      | '.' :: r3b => do
        let (d4, r4) ← parseDigits r3b
        match r4 with
        | ']' :: _ => some (d1 ++ '.' :: d2 ++ '.' :: d3 ++ '.' :: d4)
        | _ => none
      | _ => none
    | _ => none
  | _ => none

/-- Case-insensitive letter f (the regex flag i applied to the literal f). -/
def isFCh (c : Char) : Bool := c = 'f' || c = 'F'

/-- Try to match the whole mapped-literal regex at the head of the list:
open bracket, two colons, four letters f, a colon, then the quad capture
and a close bracket. -/
def matchMappedAt : List Char → Option (List Char)
  | '[' :: ':' :: ':' :: a :: b :: c :: d :: ':' :: rest =>
    if isFCh a && isFCh b && isFCh c && isFCh d then matchQuadClose rest else none
  | _ => none

/-- Leftmost match of the mapped-literal regex over the raw string: the
first position at which the whole pattern matches, returning the captured
dotted quad (String.prototype.match with a non-global regex). -/
def scanMapped : List Char → Option (List Char)
  | [] => none
  | c :: rest =>
    match matchMappedAt (c :: rest) with
    | some q => some q
    | none => scanMapped rest

/-- The privatePatterns array inside the mapped-literal branch of
validateImageUrl (lines 100 to 106): class A, class B, class C,
link-local, and the reserved zero range. -/
def privateQuadBlocked (s : String) : Bool :=
  startsWithS s "10." ||
  classBPrefixes.any (fun p => startsWithS s p) ||
  startsWithS s "192.168." ||
  startsWithS s "169.254." ||
  startsWithS s "0."

/-- Verdict of the pre-parse mapped-literal scan (lines 86 to 112): the
error message thrown there, if any.  The scan inspects the raw URL string
before any parsing. -/
def preScanError (url : String) : Option String :=
  match scanMapped url.data with
  | none => none
  | some quad =>
    if (⟨quad⟩ : String) == "127.0.0.1" || startsWithS ⟨quad⟩ "127." then
      some "Access to localhost is not allowed"
    else if privateQuadBlocked ⟨quad⟩ then
      some "Access to internal/private IP addresses is not allowed"
    else none

/-- The two fields of the WHATWG URL object read by validateImageUrl. -/
structure URLParts where
  protocol : String
  hostname : String
deriving DecidableEq, Repr

/-- Outcome of one DNS lookup (the dns/promises lookup collaborator):
a resolved address, the name-does-not-exist failure code ENOTFOUND, or
any other failure carrying its message. -/
inductive DnsResult where
  | ok (address : String)
  | enotfound
  | err (msg : String)
deriving DecidableEq, Repr

/-- The three hostnames rejected before DNS resolution (line 131). -/
def blockedHostsList : List String := ["localhost", "metadata.google.internal", "metadata"]

/-- Verdict of the stages after scheme checking (utils.js lines 127 to
168), given the lower-cased hostname and its bracket-stripped form: the
exact blocked-host check, the literal-IP branch, and the domain branch
with its single DNS lookup (the lookup receives the un-stripped lowered
hostname, as in the source; the list records the lookups made). -/
def hostVerdict (dns : String → DnsResult) (url hostname cleanHostname : String) :
    Except String String × List String :=
  if cleanHostname = "localhost" ∨ cleanHostname = "metadata.google.internal" ∨
      cleanHostname = "metadata" then
    (.error "Access to cloud metadata endpoints is not allowed", [])
  else if isIPv4 cleanHostname || isIPv6 cleanHostname then
    if isBlockedIP cleanHostname then
      (.error "Access to internal/private IP addresses is not allowed", [])
    else (.ok url, [])
  else
    match dns hostname with
    | .ok address =>
      if isBlockedIP address then
        (.error ("Domain " ++ hostname ++ " resolves to internal/private IP address"),
         [hostname])
      else (.ok url, [hostname])
    | .enotfound =>
      (.error ("Domain " ++ hostname ++ " could not be resolved"), [hostname])
    | .err m =>
      if containsS m "resolves to internal" then (.error m, [hostname])
      else (.error ("Failed to validate domain " ++ hostname ++ ": " ++ m), [hostname])

/-- Embedding of validateImageUrl, instrumented with the list of hostnames
passed to the DNS lookup collaborator (in call order).  The URL parser and
the DNS resolver are explicit collaborator parameters.  Stages, in source
order: pre-parse mapped-literal scan, URL parsing, scheme check, hostname
lowering and bracket stripping, then the host stages of hostVerdict. -/
def validateImageUrlT (parse : String → Option URLParts) (dns : String → DnsResult)
    (url : String) : Except String String × List String :=
  match preScanError url with
  | some e => (.error e, [])
  | none =>
    match parse url with
    | none => (.error ("Invalid URL: " ++ url), [])
    | some parsed =>
      if parsed.protocol ≠ "https:" then
        (.error "Only HTTPS URLs are allowed for security reasons", [])
      else
        hostVerdict dns url (toLowerS parsed.hostname)
          (stripBrackets (toLowerS parsed.hostname))

/-- The validateImageUrl result (the instrumentation projected away). -/
def validateImageUrl (parse : String → Option URLParts) (dns : String → DnsResult)
    (url : String) : Except String String :=
  (validateImageUrlT parse dns url).1

/-- Hostnames the embedded validateImageUrl passed to the DNS resolver. -/
def dnsCalls (parse : String → Option URLParts) (dns : String → DnsResult)
    (url : String) : List String :=
  (validateImageUrlT parse dns url).2

/-- Model of the WHATWG URL constructor restricted to the simple absolute
URLs used for concrete instantiation in this development: a literal http
or https scheme, then the host up to the first slash, question mark or
hash, lower-cased; used only to instantiate the parse collaborator
parameter at concrete inputs. -/
def parseSimpleUrl (url : String) : Option URLParts :=
  let afterScheme : Option (String × List Char) :=
    if startsWithS url "https://" then some ("https:", url.data.drop 8)
    else if startsWithS url "http://" then some ("http:", url.data.drop 7)
    else none
  match afterScheme with
  | none => none
  | some (proto, rest) =>
    let host := (rest.takeWhile (fun c => c ≠ '/' ∧ c ≠ '?' ∧ c ≠ '#')).map lowerCh
    if host.isEmpty then none else some ⟨proto, ⟨host⟩⟩

/-! ### The file content validator (utils.js validateImagePath, lines 181 to 210) -/

/-- A filesystem error as seen by the catch block: the Node error code
(ENOENT, EACCES, or anything else) and the error message. -/
structure FileErr where
  code : Option String
  message : String
deriving DecidableEq, Repr

/-- The isPNG test of validateImagePath applied to the magicBytes slice
(buffer.slice(0, 4)): indexing past the end of the slice compares
undefined against a number, which is false — modelled by the optional
index. -/
def isPNGb (magicBytes : List Nat) : Bool :=
  magicBytes[0]? == some 0x89 && magicBytes[1]? == some 0x50 &&
  magicBytes[2]? == some 0x4E && magicBytes[3]? == some 0x47

/-- The isJPEG test on the magicBytes slice. -/
def isJPEGb (magicBytes : List Nat) : Bool :=
  magicBytes[0]? == some 0xFF && magicBytes[1]? == some 0xD8 &&
  magicBytes[2]? == some 0xFF

/-- The isWebP test: buffer.slice(8, 12) decoded as a string equals WEBP,
which holds exactly when the four bytes are the ASCII codes of WEBP (a
short slice decodes to a shorter string). -/
def isWebPb (buffer : List Nat) : Bool :=
  (buffer.drop 8).take 4 == [0x57, 0x45, 0x42, 0x50]

/-- The isGIF test: the first three bytes of the magicBytes slice decoded
as a string equal GIF. -/
def isGIFb (magicBytes : List Nat) : Bool :=
  magicBytes.take 3 == [0x47, 0x49, 0x46]

/-- Magic-byte classification of a buffer, exactly as computed by
validateImagePath on magicBytes = buffer.slice(0, 4): PNG, JPEG, WEBP or
GIF. -/
def magicOk (buffer : List Nat) : Bool :=
  isPNGb (buffer.take 4) || isJPEGb (buffer.take 4) || isWebPb buffer ||
  isGIFb (buffer.take 4)

/-- PNG signature as the specification states it: bytes 0 to 3 equal
89 50 4E 47. -/
def pngSig (b : List Nat) : Prop :=
  b[0]? = some 0x89 ∧ b[1]? = some 0x50 ∧ b[2]? = some 0x4E ∧ b[3]? = some 0x47

/-- JPEG signature as the specification states it: bytes 0 to 2 equal
FF D8 FF. -/
def jpegSig (b : List Nat) : Prop :=
  b[0]? = some 0xFF ∧ b[1]? = some 0xD8 ∧ b[2]? = some 0xFF

/-- GIF signature as the specification states it: bytes 0 to 2 are the
ASCII codes of GIF. -/
def gifSig (b : List Nat) : Prop :=
  b[0]? = some 0x47 ∧ b[1]? = some 0x49 ∧ b[2]? = some 0x46

/-- WEBP signature as the specification states it: bytes 8 to 11 are the
ASCII codes of WEBP. -/
def webpSig (b : List Nat) : Prop :=
  b[8]? = some 0x57 ∧ b[9]? = some 0x45 ∧ b[10]? = some 0x42 ∧ b[11]? = some 0x50

/-- Embedding of validateImagePath.  The filesystem read is a collaborator
parameter.  The two recognised error codes are mapped to the two specific
messages; any other read error is rethrown unchanged, and the validation
errors thrown inside the try block carry no code, hence pass through the
catch block unchanged. -/
def validateImagePath (readF : String → Except FileErr (List Nat))
    (filepath : String) : Except String String :=
  match readF filepath with
  | .error e =>
    if e.code = some "ENOENT" then .error ("Image file not found: " ++ filepath)
    else if e.code = some "EACCES" then .error ("Permission denied reading image file: " ++ filepath)
    else .error e.message
  | .ok buffer =>
    if buffer.length = 0 then .error ("Image file is empty: " ++ filepath)
    else if !magicOk buffer then
      .error ("File does not appear to be a valid image (PNG, JPEG, WebP, or GIF): " ++ filepath)
    else .ok filepath

/-! ### Buffer loading and bounded download (utils.js lines 258 to 306) -/

/-- Embedding of loadImageAsBuffer: validate the path, read the file again
(the second read error, occurring outside any try block, propagates
unchanged), then enforce the 50 MiB ceiling. -/
def loadImageAsBuffer (readF : String → Except FileErr (List Nat))
    (imagePath : String) : Except String (List Nat) :=
  match validateImagePath readF imagePath with
  | .error e => .error e
  | .ok _ =>
    match readF imagePath with
    | .error e => .error e.message
    | .ok buffer =>
      if buffer.length > 50 * 1024 * 1024 then
        .error "Image file size exceeds maximum of 50MB"
      else .ok buffer

/-- The axios request options set by downloadImageAsBuffer. -/
structure ReqConfig where
  timeout : Nat
  maxContentLength : Nat
  maxRedirects : Nat
deriving DecidableEq, Repr

/-- The options object passed to axios.get in downloadImageAsBuffer
(lines 290 to 295): 60 second timeout, 50 MiB maximum content length,
at most 5 redirects. -/
def axiosGetConfig : ReqConfig :=
  { timeout := 60000, maxContentLength := 50 * 1024 * 1024, maxRedirects := 5 }

/-- The fields of the axios response read by downloadImageAsBuffer: the
content-type header (absent when the server sent none) and the body. -/
structure HttpResp where
  contentTypeHdr : Option String
  body : List Nat
deriving DecidableEq, Repr

/-- The content-type allow-list (line 298). -/
def allowedMimeTypes : List String := ["image/png", "image/jpeg", "image/webp", "image/gif"]

/-- Is the character in the JavaScript whitespace class (the class
backslash-s, also the set removed by String.prototype.trim). -/
def isJsSpace (c : Char) : Bool :=
  c = ' ' || c = '\t' || c = '\n' || c.toNat = 0x0b || c.toNat = 0x0c || c = '\r' ||
  c.toNat = 0xa0 || c.toNat = 0x1680 ||
  (0x2000 ≤ c.toNat && c.toNat ≤ 0x200a) ||
  c.toNat = 0x2028 || c.toNat = 0x2029 || c.toNat = 0x202f || c.toNat = 0x205f ||
  c.toNat = 0x3000 || c.toNat = 0xfeff

/-- JavaScript String.prototype.trim on character lists. -/
def jsTrimL (l : List Char) : List Char :=
  ((l.dropWhile isJsSpace).reverse.dropWhile isJsSpace).reverse

/-- The normalised content type: the header cut at the first semicolon and
trimmed, as in the source expression headers content-type split at the
semicolon, first chunk, trimmed. -/
def normContentType (hdr : String) : String :=
  ⟨jsTrimL ((splitOnCh ';' hdr.data).headD [])⟩

/-- The content-type gate of downloadImageAsBuffer (lines 297 to 303): a
missing header displays as undefined in the message, and an empty
normalised content type is falsy, hence rejected; otherwise membership in
the allow-list decides. -/
def contentTypeStage (response : HttpResp) : Except String (List Nat) :=
  match response.contentTypeHdr.map normContentType with
  | none => .error "Invalid Content-Type: undefined. Expected image/* (png, jpeg, webp, gif)"
  | some ct =>
    if ct = "" || !(allowedMimeTypes.contains ct) then
      .error ("Invalid Content-Type: " ++ ct ++ ". Expected image/* (png, jpeg, webp, gif)")
    else .ok response.body

/-- The transfer stage of downloadImageAsBuffer: the axios request with
the fixed options, whose failure propagates, followed by the content-type
gate. -/
def fetchStage (http : String → ReqConfig → Except String HttpResp)
    (validatedUrl : String) : Except String (List Nat) :=
  match http validatedUrl axiosGetConfig with
  | .error e => .error e
  | .ok response => contentTypeStage response

/-- Embedding of downloadImageAsBuffer: validate the URL first (its error
propagates and no request is made), then the transfer and content-type
stages. -/
def downloadImageAsBuffer (parse : String → Option URLParts) (dns : String → DnsResult)
    (http : String → ReqConfig → Except String HttpResp)
    (imageUrl : String) : Except String (List Nat) :=
  match validateImageUrl parse dns imageUrl with
  | .error e => .error e
  | .ok validatedUrl => fetchStage http validatedUrl

/-! ### The dimension validator (utils.js assertSquareImage, lines 223 to 245) -/

/-- Width and height as returned by the image-size collaborator. -/
structure Dimensions where
  width : Nat
  height : Nat
deriving DecidableEq, Repr

/-- The three shapes of input accepted by assertSquareImage: an in-memory
buffer, a file path, or anything else (which the source rejects inside the
try block). -/
inductive ImageSource where
  | buffer (bytes : List Nat)
  | path (p : String)
  | other
deriving DecidableEq, Repr

/-- The dimension extraction step inside the try block of
assertSquareImage: imageSize on buffers, imageSizeFromFile on paths, and
the unsupported-input rejection for anything else. -/
def decodeDims (imageSizeF : List Nat → Except String Dimensions)
    (imageSizeFromFileF : String → Except String Dimensions) :
    ImageSource → Except String Dimensions
  | .buffer b => imageSizeF b
  | .path p => imageSizeFromFileF p
  | .other => .error "Unsupported image input"

/-- Embedding of assertSquareImage.  The two decoders are collaborator
parameters; every failure inside the try block, including the
unsupported-input rejection, is wrapped into the single dimensions error
carrying the cause message; then the square check compares width and
height, reporting both on failure. -/
def assertSquareImage (imageSizeF : List Nat → Except String Dimensions)
    (imageSizeFromFileF : String → Except String Dimensions)
    (imageSource : ImageSource) : Except String Unit :=
  match decodeDims imageSizeF imageSizeFromFileF imageSource with
  | .error m => .error ("Unable to read image dimensions: " ++ m)
  | .ok dims =>
    if dims.width ≠ dims.height then
      .error ("Image must be square. Received " ++ ⟨natDigits dims.width⟩ ++ "x" ++
        (⟨natDigits dims.height⟩ : String))
    else .ok ()

/-! ### The filename sanitizer (utils.js generateFilename, lines 404 to 429) -/

/-- The date components observed through Date.prototype.toISOString. -/
structure JsDate where
  year : Nat
  month : Nat
  day : Nat
  hour : Nat
  minute : Nat
  second : Nat
  ms : Nat
deriving DecidableEq, Repr

/-- Model of Date.prototype.toISOString for years 0 to 9999: the fixed
format YYYY-MM-DDTHH:mm:ss.sssZ with zero-padded fields. -/
def toISOStringM (d : JsDate) : String :=
  ⟨padDigits 4 d.year ++ '-' :: padDigits 2 d.month ++ '-' :: padDigits 2 d.day ++
   'T' :: padDigits 2 d.hour ++ ':' :: padDigits 2 d.minute ++ ':' :: padDigits 2 d.second ++
   '.' :: padDigits 3 d.ms ++ ['Z']⟩

/-- String.prototype.replace with a plain (non-regex) search string
replaces only the first occurrence. -/
def replaceFirstCh (a b : Char) : List Char → List Char
  | [] => []
  | c :: rest => if c = a then b :: rest else c :: replaceFirstCh a b rest

/-- The timestamp prefix computed by generateFilename: the ISO string with
every dash and colon removed, the first T replaced by an underscore, and
everything from the first dot on dropped. -/
def timestampOf (now : JsDate) : List Char :=
  (replaceFirstCh 'T' '_'
    ((toISOStringM now).data.filter (fun c => c ≠ '-' ∧ c ≠ ':'))).takeWhile (fun c => c ≠ '.')

/-- Character kept by the prompt sanitizing regex class a to z, 0 to 9,
and whitespace. -/
def isSlugKeep (c : Char) : Bool :=
  ('a' ≤ c && c ≤ 'z') || c.isDigit || isJsSpace c

/-- Replace every maximal whitespace run by a single hyphen (the global
replacement of one-or-more whitespace by a hyphen); the flag records
whether the previous character was whitespace. -/
def collapseWsAux : Bool → List Char → List Char
  | _, [] => []
  | prevWs, c :: rest =>
    if isJsSpace c then
      if prevWs then collapseWsAux true rest
      else '-' :: collapseWsAux true rest
    else c :: collapseWsAux false rest

/-- Whitespace-run collapsing starting outside a run. -/
def collapseWs (l : List Char) : List Char := collapseWsAux false l

/-- The sanitized slug: lower-case, strip everything outside the keep
class, trim, collapse whitespace runs to hyphens, truncate to maxLength. -/
def sanitizeSlug (prompt : String) (maxLength : Nat) : List Char :=
  (collapseWs (jsTrimL ((prompt.data.map lowerCh).filter isSlugKeep))).take maxLength

/-- ASCII lower-case letter or digit. -/
def isAlnumLower (c : Char) : Bool := ('a' ≤ c && c ≤ 'z') || c.isDigit

/-- The sanitized extension: lower-case, strip leading dots, strip
everything outside a to z and 0 to 9, truncate to 10 characters, and fall
back to png when empty. -/
def sanitizeExt (extension : String) : List Char :=
  let e := (((extension.data.map lowerCh).dropWhile (fun c => c = '.')).filter
    isAlnumLower).take 10
  if e.isEmpty then ['p', 'n', 'g'] else e

/-- Embedding of generateFilename; the clock is the explicit now
parameter, and the default arguments mirror the source defaults. -/
def generateFilename (now : JsDate) (prompt : String)
    (extension : String := "png") (maxLength : Nat := 50) : String :=
  ⟨timestampOf now ++ '_' :: sanitizeSlug prompt maxLength ++ '.' :: sanitizeExt extension⟩

/-! ### API key redaction (config.js redactApiKey, lines 221 to 226) -/

/-- The dynamically typed argument of redactApiKey: null or undefined,
some non-string value, or a string. -/
inductive JsInput where
  | nullOrUndef
  | nonString
  | str (s : String)
deriving DecidableEq, Repr

/-- Embedding of redactApiKey: the falsy check, the typeof check, and the
length check all produce the fixed mask; otherwise the mask followed by
the last four characters (String.prototype.slice with argument -4). -/
def redactApiKey (apiKey : JsInput) : String :=
  match apiKey with
  | .str s =>
    if s = "" || s.length < 4 then "xxx...xxx"
    else "xxx..." ++ (⟨s.data.drop (s.data.length - 4)⟩ : String)
  | _ => "xxx...xxx"

/-- The canonical dotted-quad literal of four octet values; every string
accepted by the Node IPv4 syntax is of this form for its octet values
(no leading zeros), so quantifying over octet values quantifies over all
literal IPv4 address strings. -/
def mkIPv4 (a b c d : Nat) : String :=
  ⟨natDigits a ++ '.' :: natDigits b ++ '.' :: natDigits c ++ '.' :: natDigits d⟩

/-- Value of one hexadecimal digit character. -/
def hexDigitVal (c : Char) : Nat :=
  if c.isDigit then c.toNat - 48
  else if 'a' ≤ c ∧ c ≤ 'f' then c.toNat - 87
  else if 'A' ≤ c ∧ c ≤ 'F' then c.toNat - 55
  else 0

/-- Hexadecimal value of a list of hex digit characters. -/
def hexVal (l : List Char) : Nat := l.foldl (fun acc c => 16 * acc + hexDigitVal c) 0

/-- Value of the leading 16-bit group of a textual IPv6 address. -/
def firstGroupVal (s : String) : Nat := hexVal ((splitOnCh ':' s.data).headD [])

/-- Membership of a textual IPv6 address in the link-local CIDR range
fe80::/10, decided by the top ten bits of its leading 16-bit group. -/
def inFe80Slash10 (s : String) : Bool :=
  decide (firstGroupVal s / 64 = 0xfe80 / 64)

/-! ### Generic helper lemmas -/

theorem mem_of_getLast?_eq {l : List Char} {a : Char} (h : l.getLast? = some a) : a ∈ l := by
  cases l with
  | nil => simp at h
  | cons x xs =>
    rw [List.getLast?_eq_getLast _ (by simp)] at h
    exact (Option.some.inj h) ▸ List.getLast_mem (by simp)

theorem isPrefixOf_append_self (l r : List Char) : l.isPrefixOf (l ++ r) = true := by
  rw [List.isPrefixOf_iff_prefix]
  exact List.prefix_append l r

theorem isPrefixOf_self (l : List Char) : l.isPrefixOf l = true := by
  rw [List.isPrefixOf_iff_prefix]

theorem containsSubL_append_self (p l : List Char) : containsSubL l (p ++ l) = true := by
  induction p with
  | nil =>
    cases l with
    | nil => rfl
    | cons c rest =>
      show (List.isPrefixOf (c :: rest) (c :: rest) || _) = true
      rw [isPrefixOf_self]
      rfl
  | cons c p ih =>
    show containsSubL l (c :: (p ++ l)) = true
    cases l with
    | nil => rfl
    | cons x xs =>
      show (List.isPrefixOf _ _ || containsSubL (x :: xs) (p ++ x :: xs)) = true
      rw [ih]
      simp

theorem containsS_append_left (pre m : String) : containsS (⟨pre.data ++ m.data⟩ : String) m = true :=
  containsSubL_append_self pre.data m.data

theorem containsS_self (m : String) : containsS m m = true := by
  have := containsSubL_append_self [] m.data
  simpa [containsS] using this

/-! ### Lemmas about decimal digit strings -/

theorem natDigitsAux_irrel (f₁ f₂ n : Nat) (h₁ : n < f₁) (h₂ : n < f₂) :
    natDigitsAux f₁ n = natDigitsAux f₂ n := by
  induction f₁ using Nat.strong_induction_on generalizing f₂ n with
  | _ f₁ ih =>
    cases f₁ with
    | zero => omega
    | succ g₁ =>
      cases f₂ with
      | zero => omega
      | succ g₂ =>
        show (if n < 10 then _ else natDigitsAux g₁ (n / 10) ++ _) =
          (if n < 10 then _ else natDigitsAux g₂ (n / 10) ++ _)
        by_cases hn : n < 10
        · simp [hn]
        · rw [if_neg hn, if_neg hn, ih g₁ (by omega) g₂ (n / 10) (by omega) (by omega)]

theorem natDigits_step (n : Nat) :
    natDigits n = if n < 10 then [Nat.digitChar n]
      else natDigits (n / 10) ++ [Nat.digitChar (n % 10)] := by
  show natDigitsAux (n + 1) n = _
  by_cases hn : n < 10
  · simp [natDigitsAux, hn]
  · show (if n < 10 then _ else natDigitsAux n (n / 10) ++ _) = _
    rw [if_neg hn, if_neg hn,
      natDigitsAux_irrel n (n / 10 + 1) (n / 10) (by omega) (by omega)]
    rfl

theorem digitChar_isDigit {n : Nat} (h : n < 10) : (Nat.digitChar n).isDigit = true := by
  interval_cases n <;> decide

theorem natDigits_all_digits (n : Nat) : ∀ c ∈ natDigits n, c.isDigit = true := by
  induction n using Nat.strong_induction_on with
  | _ n ih =>
    rw [natDigits_step]
    by_cases hn : n < 10
    · rw [if_pos hn]
      intro c hc
      rw [List.mem_singleton] at hc
      exact hc ▸ digitChar_isDigit hn
    · rw [if_neg hn]
      intro c hc
      rcases List.mem_append.mp hc with h | h
      · exact ih (n / 10) (by omega) c h
      · rw [List.mem_singleton] at h
        exact h ▸ digitChar_isDigit (Nat.mod_lt _ (by omega))

theorem natDigits_ne_nil (n : Nat) : natDigits n ≠ [] := by
  rw [natDigits_step]
  by_cases hn : n < 10
  · simp [hn]
  · simp [hn]

theorem natDigits_head_ne_zero {n : Nat} (h : 1 ≤ n) :
    ∀ c, (natDigits n).head? = some c → c ≠ '0' := by
  induction n using Nat.strong_induction_on with
  | _ n ih =>
    rw [natDigits_step]
    by_cases hn : n < 10
    · rw [if_pos hn]
      intro c hc
      rw [List.head?_cons, Option.some.injEq] at hc
      subst hc
      interval_cases n <;> simp_all <;> decide
    · rw [if_neg hn]
      intro c hc
      rw [List.head?_append_of_ne_nil _ (natDigits_ne_nil (n / 10))] at hc
      exact ih (n / 10) (by omega) (by omega) c hc

theorem digitsVal_append_singleton (l : List Char) (c : Char) :
    digitsVal (l ++ [c]) = 10 * digitsVal l + (c.toNat - '0'.toNat) := by
  simp [digitsVal, List.foldl_append]

theorem digitsVal_natDigits (n : Nat) : digitsVal (natDigits n) = n := by
  induction n using Nat.strong_induction_on with
  | _ n ih =>
    rw [natDigits_step]
    by_cases hn : n < 10
    · rw [if_pos hn]
      show digitsVal ([] ++ [Nat.digitChar n]) = n
      rw [digitsVal_append_singleton]
      have : (Nat.digitChar n).toNat - 48 = n := by interval_cases n <;> decide
      simp [digitsVal, this]
    · rw [if_neg hn, digitsVal_append_singleton, ih (n / 10) (by omega)]
      have : (Nat.digitChar (n % 10)).toNat - '0'.toNat = n % 10 := by
        have h10 : n % 10 < 10 := Nat.mod_lt _ (by omega)
        set m := n % 10 with hm
        interval_cases m <;> decide
      rw [this]
      omega

theorem natDigits_length_le {n k : Nat} (hk : 1 ≤ k) (h : n < 10 ^ k) :
    (natDigits n).length ≤ k := by
  induction k using Nat.strong_induction_on generalizing n with
  | _ k ih =>
    rw [natDigits_step]
    by_cases hn : n < 10
    · simpa [hn] using hk
    · rw [if_neg hn]
      cases k with
      | zero => omega
      | succ k' =>
        have hk' : 1 ≤ k' := by
          by_contra hc
          have : k' = 0 := by omega
          subst this
          simp [pow_succ] at h
          omega
        have : n / 10 < 10 ^ k' := by
          rw [Nat.div_lt_iff_lt_mul (by omega)]
          calc n < 10 ^ (k' + 1) := h
          _ = 10 ^ k' * 10 := by ring
        simp only [List.length_append, List.length_singleton]
        have := ih k' (by omega) hk' this
        omega

theorem padDigits_length {w n : Nat} (hw : 1 ≤ w) (h : n < 10 ^ w) :
    (padDigits w n).length = w := by
  have hle := natDigits_length_le hw h
  simp [padDigits, List.length_append, List.length_replicate]
  omega

theorem padDigits_all_digits (w n : Nat) : ∀ c ∈ padDigits w n, c.isDigit = true := by
  intro c hc
  rcases List.mem_append.mp hc with h | h
  · rw [List.eq_of_mem_replicate h]
    decide
  · exact natDigits_all_digits n c h

/-! ### Lemmas about character splitting -/

theorem splitOnChAux_no_sep {sep : Char} {x : List Char} (acc : List Char)
    (hx : sep ∉ x) : splitOnChAux sep acc x = [acc.reverse ++ x] := by
  induction x generalizing acc with
  | nil => simp [splitOnChAux]
  | cons c rest ih =>
    have hc : ¬(c = sep) := fun h => hx (h ▸ List.mem_cons_self c rest)
    show (if c = sep then _ else splitOnChAux sep (c :: acc) rest) = _
    rw [if_neg hc, ih (c :: acc) (fun h => hx (List.mem_cons_of_mem c h))]
    simp

theorem splitOnChAux_sep_split {sep : Char} {x : List Char} (acc rest : List Char)
    (hx : sep ∉ x) :
    splitOnChAux sep acc (x ++ sep :: rest) =
      (acc.reverse ++ x) :: splitOnChAux sep [] rest := by
  induction x generalizing acc with
  | nil =>
    show (if sep = sep then _ else _) = _
    rw [if_pos rfl]
    simp
  | cons c cs ih =>
    have hc : ¬(c = sep) := fun h => hx (h ▸ List.mem_cons_self c cs)
    show (if c = sep then _ else splitOnChAux sep (c :: acc) (cs ++ sep :: rest)) = _
    rw [if_neg hc, ih (c :: acc) (fun h => hx (List.mem_cons_of_mem c h))]
    simp

theorem splitOnCh_quad {a b c d : List Char}
    (ha : '.' ∉ a) (hb : '.' ∉ b) (hc : '.' ∉ c) (hd : '.' ∉ d) :
    splitOnCh '.' (a ++ '.' :: b ++ '.' :: c ++ '.' :: d) = [a, b, c, d] := by
  show splitOnChAux '.' [] _ = _
  rw [show a ++ '.' :: b ++ '.' :: c ++ '.' :: d =
    a ++ '.' :: (b ++ '.' :: (c ++ '.' :: d)) by simp,
    splitOnChAux_sep_split [] _ ha, splitOnChAux_sep_split [] _ hb,
    splitOnChAux_sep_split [] _ hc, splitOnChAux_no_sep [] hd]
  simp

/-! ### The canonical dotted-quad literal and classifier lemmas -/

theorem digit_not_upper {c : Char} (h : c.isDigit = true) : ¬ ('A' ≤ c ∧ c ≤ 'Z') := by
  simp only [Char.isDigit, Bool.and_eq_true, decide_eq_true_eq] at h
  rintro ⟨h1, _⟩
  rw [Char.le_def] at h1
  exact absurd (UInt32.le_trans h1 h.2) (by decide)

theorem lowerCh_of_digit_or_dot {c : Char} (h : c.isDigit = true ∨ c = '.') :
    lowerCh c = c := by
  rcases h with h | h
  · exact if_neg (digit_not_upper h)
  · subst h; decide

theorem dot_not_mem_natDigits (n : Nat) : '.' ∉ natDigits n := by
  intro h
  have := natDigits_all_digits n _ h
  exact absurd this (by decide)

theorem mkIPv4_mem {a b c d : Nat} :
    ∀ ch ∈ (mkIPv4 a b c d).data, ch.isDigit = true ∨ ch = '.' := by
  intro ch hch
  have hch' : ch ∈ natDigits a ++ '.' :: natDigits b ++ '.' :: natDigits c ++ '.' :: natDigits d :=
    hch
  rcases List.mem_append.mp hch' with h | h
  · rcases List.mem_append.mp h with h | h
    · rcases List.mem_append.mp h with h | h
      · exact Or.inl (natDigits_all_digits a ch h)
      · rcases List.mem_cons.mp h with h | h
        · exact Or.inr h
        · exact Or.inl (natDigits_all_digits b ch h)
    · rcases List.mem_cons.mp h with h | h
      · exact Or.inr h
      · exact Or.inl (natDigits_all_digits c ch h)
  · rcases List.mem_cons.mp h with h | h
    · exact Or.inr h
    · exact Or.inl (natDigits_all_digits d ch h)

theorem map_lowerCh_eq_self {l : List Char}
    (h : ∀ c ∈ l, c.isDigit = true ∨ c = '.') : l.map lowerCh = l := by
  induction l with
  | nil => rfl
  | cons c rest ih =>
    rw [List.map_cons, lowerCh_of_digit_or_dot (h c (List.mem_cons_self c rest)),
      ih (fun x hx => h x (List.mem_cons_of_mem c hx))]

theorem stripBracketsL_of_digit_or_dot {l : List Char}
    (h : ∀ c ∈ l, c.isDigit = true ∨ c = '.') : stripBracketsL l = l := by
  have hh : ¬ (l.head? = some '[') := by
    intro hh
    have hmem : '[' ∈ l := by
      cases l with
      | nil => simp at hh
      | cons c rest =>
        rw [List.head?_cons, Option.some.injEq] at hh
        exact hh ▸ List.mem_cons_self c rest
    rcases h '[' hmem with hd | hd
    · exact absurd hd (by decide)
    · exact absurd hd (by decide)
  have hl : ¬ (l.getLast? = some ']') := by
    intro hl
    rcases h ']' (mem_of_getLast?_eq hl) with hd | hd
    · exact absurd hd (by decide)
    · exact absurd hd (by decide)
  unfold stripBracketsL
  simp only [if_neg hh, if_neg hl]

theorem stripBrackets_mkIPv4 (a b c d : Nat) :
    stripBrackets (toLowerS (mkIPv4 a b c d)) = mkIPv4 a b c d := by
  have h1 : toLowerS (mkIPv4 a b c d) = mkIPv4 a b c d := by
    show (⟨(mkIPv4 a b c d).data.map lowerCh⟩ : String) = mkIPv4 a b c d
    rw [map_lowerCh_eq_self mkIPv4_mem]
  rw [h1]
  show (⟨stripBracketsL (mkIPv4 a b c d).data⟩ : String) = mkIPv4 a b c d
  rw [stripBracketsL_of_digit_or_dot mkIPv4_mem]

theorem validOctet_natDigits {n : Nat} (h : n ≤ 255) : validOctet (natDigits n) = true := by
  rcases Nat.eq_zero_or_pos n with h0 | h1
  · subst h0; decide
  · have hne := natDigits_ne_nil n
    have hdig := natDigits_all_digits n
    have hval : digitsVal (natDigits n) ≤ 255 := by rw [digitsVal_natDigits]; exact h
    have hhead : ((natDigits n).head? != some '0') = true := by
      cases hh : (natDigits n).head? with
      | none => rfl
      | some c =>
        have hc := natDigits_head_ne_zero h1 c hh
        simp [hc]
    unfold validOctet
    rw [Bool.and_eq_true, Bool.and_eq_true, Bool.and_eq_true]
    refine ⟨⟨⟨?_, ?_⟩, ?_⟩, by simpa using hval⟩
    · simpa [List.isEmpty_iff] using hne
    · exact List.all_eq_true.mpr hdig
    · rw [Bool.or_eq_true]
      exact Or.inl hhead

theorem isIPv4_mkIPv4 {a b c d : Nat} (ha : a ≤ 255) (hb : b ≤ 255)
    (hc : c ≤ 255) (hd : d ≤ 255) : isIPv4 (mkIPv4 a b c d) = true := by
  unfold isIPv4
  have hsplit : (mkIPv4 a b c d).data =
      natDigits a ++ '.' :: natDigits b ++ '.' :: natDigits c ++ '.' :: natDigits d := rfl
  rw [hsplit, splitOnCh_quad (dot_not_mem_natDigits a) (dot_not_mem_natDigits b)
    (dot_not_mem_natDigits c) (dot_not_mem_natDigits d)]
  simp [validOctet_natDigits, ha, hb, hc, hd]

/-- Introduce a prefix test from an explicit data decomposition. -/
theorem startsWithS_intro {s p : String} (r : List Char) (h : s.data = p.data ++ r) :
    startsWithS s p = true := by
  unfold startsWithS
  rw [h]
  exact isPrefixOf_append_self p.data r

theorem blockedPattern_classB {s : String} (p : String) (hp : p ∈ classBPrefixes)
    (h : startsWithS s p = true) : blockedPatternTest s = true := by
  unfold blockedPatternTest
  have hany : classBPrefixes.any (fun q => startsWithS s q) = true :=
    List.any_eq_true.mpr ⟨p, hp, h⟩
  rw [hany]
  simp

theorem blockedPattern_of_starts {s : String}
    (h : startsWithS s "127." = true ∨ startsWithS s "10." = true ∨
      startsWithS s "192.168." = true ∨ startsWithS s "169.254." = true ∨
      startsWithS s "0." = true ∨ startsWithS s "fe80:" = true ∨
      startsWithS s "fc00:" = true ∨ startsWithS s "fd00:" = true ∨ s = "::1") :
    blockedPatternTest s = true := by
  unfold blockedPatternTest
  rcases h with h | h | h | h | h | h | h | h | h <;> simp [h]

theorem isBlockedIP_eq (s : String) : isBlockedIP s =
    (stripBrackets s == "localhost" || stripBrackets s == "127.0.0.1" ||
     stripBrackets s == "::1" || stripBrackets s == "metadata.google.internal" ||
     stripBrackets s == "metadata" || stripBrackets s == "169.254.169.254" ||
     blockedPatternTest (stripBrackets s)) := rfl

theorem isBlockedIP_of_pattern {s : String}
    (h : blockedPatternTest (stripBrackets s) = true) : isBlockedIP s = true := by
  rw [isBlockedIP_eq, h]
  simp

theorem isBlockedIP_mkIPv4 {a b c d : Nat}
    (hrange : a = 10 ∨ (a = 172 ∧ 16 ≤ b ∧ b ≤ 31) ∨ (a = 192 ∧ b = 168) ∨
      (a = 169 ∧ b = 254) ∨ a = 127 ∨ a = 0) :
    blockedPatternTest (mkIPv4 a b c d) = true := by
  rcases hrange with h | ⟨h, hb1, hb2⟩ | ⟨h, h2⟩ | ⟨h, h2⟩ | h | h
  · subst h
    exact blockedPattern_of_starts (Or.inr (Or.inl (startsWithS_intro
      (natDigits b ++ '.' :: natDigits c ++ '.' :: natDigits d) rfl)))
  · subst h
    interval_cases b
    · exact blockedPattern_classB "172.16." (by decide)
        (startsWithS_intro (natDigits c ++ '.' :: natDigits d) rfl)
    · exact blockedPattern_classB "172.17." (by decide)
        (startsWithS_intro (natDigits c ++ '.' :: natDigits d) rfl)
    · exact blockedPattern_classB "172.18." (by decide)
        (startsWithS_intro (natDigits c ++ '.' :: natDigits d) rfl)
    · exact blockedPattern_classB "172.19." (by decide)
        (startsWithS_intro (natDigits c ++ '.' :: natDigits d) rfl)
    · exact blockedPattern_classB "172.20." (by decide)
        (startsWithS_intro (natDigits c ++ '.' :: natDigits d) rfl)
    · exact blockedPattern_classB "172.21." (by decide)
        (startsWithS_intro (natDigits c ++ '.' :: natDigits d) rfl)
    · exact blockedPattern_classB "172.22." (by decide)
        (startsWithS_intro (natDigits c ++ '.' :: natDigits d) rfl)
    · exact blockedPattern_classB "172.23." (by decide)
        (startsWithS_intro (natDigits c ++ '.' :: natDigits d) rfl)
    · exact blockedPattern_classB "172.24." (by decide)
        (startsWithS_intro (natDigits c ++ '.' :: natDigits d) rfl)
    · exact blockedPattern_classB "172.25." (by decide)
        (startsWithS_intro (natDigits c ++ '.' :: natDigits d) rfl)
    · exact blockedPattern_classB "172.26." (by decide)
        (startsWithS_intro (natDigits c ++ '.' :: natDigits d) rfl)
    · exact blockedPattern_classB "172.27." (by decide)
        (startsWithS_intro (natDigits c ++ '.' :: natDigits d) rfl)
    · exact blockedPattern_classB "172.28." (by decide)
        (startsWithS_intro (natDigits c ++ '.' :: natDigits d) rfl)
    · exact blockedPattern_classB "172.29." (by decide)
        (startsWithS_intro (natDigits c ++ '.' :: natDigits d) rfl)
    · exact blockedPattern_classB "172.30." (by decide)
        (startsWithS_intro (natDigits c ++ '.' :: natDigits d) rfl)
    · exact blockedPattern_classB "172.31." (by decide)
        (startsWithS_intro (natDigits c ++ '.' :: natDigits d) rfl)
  · subst h; subst h2
    exact blockedPattern_of_starts (Or.inr (Or.inr (Or.inl (startsWithS_intro
      (natDigits c ++ '.' :: natDigits d) rfl))))
  · subst h; subst h2
    exact blockedPattern_of_starts (Or.inr (Or.inr (Or.inr (Or.inl (startsWithS_intro
      (natDigits c ++ '.' :: natDigits d) rfl)))))
  · subst h
    exact blockedPattern_of_starts (Or.inl (startsWithS_intro
      (natDigits b ++ '.' :: natDigits c ++ '.' :: natDigits d) rfl))
  · subst h
    exact blockedPattern_of_starts (Or.inr (Or.inr (Or.inr (Or.inr (Or.inl
      (startsWithS_intro (natDigits b ++ '.' :: natDigits c ++ '.' :: natDigits d) rfl))))))

/-! ### Stage lemmas for the URL validator -/

theorem validateImageUrl_eq (parse : String → Option URLParts) (dns : String → DnsResult)
    (url : String) : validateImageUrl parse dns url = (validateImageUrlT parse dns url).1 := rfl

theorem mkString_append (a b : String) : (⟨a.data ++ b.data⟩ : String) = a ++ b := by
  rw [← String.data_append]

theorem preScan_of_127 {url : String} {quad : List Char}
    (h : scanMapped url.data = some quad)
    (h127 : ((⟨quad⟩ : String) == "127.0.0.1" || startsWithS ⟨quad⟩ "127.") = true) :
    preScanError url = some "Access to localhost is not allowed" := by
  unfold preScanError
  rw [h]
  show (if ((⟨quad⟩ : String) == "127.0.0.1" || startsWithS ⟨quad⟩ "127.") = true
    then _ else _) = _
  rw [if_pos h127]

theorem preScan_of_private {url : String} {quad : List Char}
    (h : scanMapped url.data = some quad)
    (h127 : ((⟨quad⟩ : String) == "127.0.0.1" || startsWithS ⟨quad⟩ "127.") = false)
    (hpriv : privateQuadBlocked ⟨quad⟩ = true) :
    preScanError url = some "Access to internal/private IP addresses is not allowed" := by
  unfold preScanError
  rw [h]
  show (if ((⟨quad⟩ : String) == "127.0.0.1" || startsWithS ⟨quad⟩ "127.") = true
    then _ else _) = _
  rw [if_neg (by rw [h127]; exact Bool.false_ne_true), if_pos hpriv]

theorem validateT_preScan {parse : String → Option URLParts} {dns : String → DnsResult}
    {url e : String} (h : preScanError url = some e) :
    validateImageUrlT parse dns url = (.error e, []) := by
  unfold validateImageUrlT
  rw [h]

theorem validateT_parseFail {parse : String → Option URLParts} {dns : String → DnsResult}
    {url : String} (h1 : preScanError url = none) (h2 : parse url = none) :
    validateImageUrlT parse dns url = (.error ("Invalid URL: " ++ url), []) := by
  unfold validateImageUrlT
  rw [h1, h2]

theorem validateT_scheme {parse : String → Option URLParts} {dns : String → DnsResult}
    {url : String} {p : URLParts} (h1 : preScanError url = none) (h2 : parse url = some p)
    (h3 : p.protocol ≠ "https:") :
    validateImageUrlT parse dns url =
      (.error "Only HTTPS URLs are allowed for security reasons", []) := by
  unfold validateImageUrlT
  rw [h1, h2]
  show (if p.protocol ≠ "https:" then _ else _) = _
  rw [if_pos h3]

theorem validateT_host {parse : String → Option URLParts} {dns : String → DnsResult}
    {url : String} {p : URLParts} (h1 : preScanError url = none) (h2 : parse url = some p)
    (h3 : p.protocol = "https:") :
    validateImageUrlT parse dns url =
      hostVerdict dns url (toLowerS p.hostname) (stripBrackets (toLowerS p.hostname)) := by
  unfold validateImageUrlT
  rw [h1, h2]
  show (if p.protocol ≠ "https:" then _ else _) = _
  rw [if_neg (by simp [h3])]

theorem hostVerdict_blockedHost {dns : String → DnsResult} {url hostname clean : String}
    (h : clean = "localhost" ∨ clean = "metadata.google.internal" ∨ clean = "metadata") :
    hostVerdict dns url hostname clean =
      (.error "Access to cloud metadata endpoints is not allowed", []) := by
  unfold hostVerdict
  rw [if_pos h]

theorem hostVerdict_blockedIPLit {dns : String → DnsResult} {url hostname clean : String}
    (h1 : ¬(clean = "localhost" ∨ clean = "metadata.google.internal" ∨ clean = "metadata"))
    (h2 : (isIPv4 clean || isIPv6 clean) = true) (h3 : isBlockedIP clean = true) :
    hostVerdict dns url hostname clean =
      (.error "Access to internal/private IP addresses is not allowed", []) := by
  unfold hostVerdict
  rw [if_neg h1, if_pos h2, if_pos h3]

theorem hostVerdict_okIPLit {dns : String → DnsResult} {url hostname clean : String}
    (h1 : ¬(clean = "localhost" ∨ clean = "metadata.google.internal" ∨ clean = "metadata"))
    (h2 : (isIPv4 clean || isIPv6 clean) = true) (h3 : isBlockedIP clean = false) :
    hostVerdict dns url hostname clean = (.ok url, []) := by
  unfold hostVerdict
  rw [if_neg h1, if_pos h2, if_neg (by rw [h3]; exact Bool.false_ne_true)]

theorem hostVerdict_dnsBlocked {dns : String → DnsResult} {url hostname clean a : String}
    (h1 : ¬(clean = "localhost" ∨ clean = "metadata.google.internal" ∨ clean = "metadata"))
    (h2 : (isIPv4 clean || isIPv6 clean) = false) (h3 : dns hostname = .ok a)
    (h4 : isBlockedIP a = true) :
    hostVerdict dns url hostname clean =
      (.error ("Domain " ++ hostname ++ " resolves to internal/private IP address"),
       [hostname]) := by
  unfold hostVerdict
  rw [if_neg h1, if_neg (by rw [h2]; exact Bool.false_ne_true), h3]
  show (if isBlockedIP a = true then _ else _) = _
  rw [if_pos h4]

theorem hostVerdict_dnsOk {dns : String → DnsResult} {url hostname clean a : String}
    (h1 : ¬(clean = "localhost" ∨ clean = "metadata.google.internal" ∨ clean = "metadata"))
    (h2 : (isIPv4 clean || isIPv6 clean) = false) (h3 : dns hostname = .ok a)
    (h4 : isBlockedIP a = false) :
    hostVerdict dns url hostname clean = (.ok url, [hostname]) := by
  unfold hostVerdict
  rw [if_neg h1, if_neg (by rw [h2]; exact Bool.false_ne_true), h3]
  show (if isBlockedIP a = true then _ else _) = _
  rw [if_neg (by rw [h4]; exact Bool.false_ne_true)]

theorem hostVerdict_dnsNotFound {dns : String → DnsResult} {url hostname clean : String}
    (h1 : ¬(clean = "localhost" ∨ clean = "metadata.google.internal" ∨ clean = "metadata"))
    (h2 : (isIPv4 clean || isIPv6 clean) = false) (h3 : dns hostname = .enotfound) :
    hostVerdict dns url hostname clean =
      (.error ("Domain " ++ hostname ++ " could not be resolved"), [hostname]) := by
  unfold hostVerdict
  rw [if_neg h1, if_neg (by rw [h2]; exact Bool.false_ne_true), h3]

theorem hostVerdict_dnsErr {dns : String → DnsResult} {url hostname clean m : String}
    (h1 : ¬(clean = "localhost" ∨ clean = "metadata.google.internal" ∨ clean = "metadata"))
    (h2 : (isIPv4 clean || isIPv6 clean) = false) (h3 : dns hostname = .err m) :
    hostVerdict dns url hostname clean =
      (if containsS m "resolves to internal" then (.error m, [hostname])
       else (.error ("Failed to validate domain " ++ hostname ++ ": " ++ m), [hostname])) := by
  unfold hostVerdict
  rw [if_neg h1, if_neg (by rw [h2]; exact Bool.false_ne_true), h3]

/-! ### Claim C1 -/

/-- C1: the URL validator runs its stages in the fixed order.  First the
pre-parse scan of the raw, unparsed string for a bracketed
IPv4-mapped-IPv6 literal: if the captured dotted quad starts with 127.
validation fails with the localhost error, and if it falls in the private
ranges it fails with the private-IP error — in both cases for every
parser and resolver collaborator, hence in particular for strings that
are unparseable as URLs or use a non-https scheme.  Only when the scan
does not fire is the string parsed (an unparseable string fails with the
Invalid URL format error), and only after parsing is a non-https scheme
rejected with the security error. -/
theorem C1_preparse_scan_runs_first :
    (∀ (parse : String → Option URLParts) (dns : String → DnsResult) (url : String)
       (quad : List Char), scanMapped url.data = some quad →
       startsWithS ⟨quad⟩ "127." = true →
       validateImageUrl parse dns url = .error "Access to localhost is not allowed") ∧
    (∀ (parse : String → Option URLParts) (dns : String → DnsResult) (url : String)
       (quad : List Char), scanMapped url.data = some quad →
       ((⟨quad⟩ : String) == "127.0.0.1" || startsWithS ⟨quad⟩ "127.") = false →
       privateQuadBlocked ⟨quad⟩ = true →
       validateImageUrl parse dns url =
         .error "Access to internal/private IP addresses is not allowed") ∧
    (∀ (parse : String → Option URLParts) (dns : String → DnsResult) (url : String),
       preScanError url = none → parse url = none →
       validateImageUrl parse dns url = .error ("Invalid URL: " ++ url)) ∧
    (∀ (parse : String → Option URLParts) (dns : String → DnsResult) (url : String)
       (p : URLParts), preScanError url = none → parse url = some p →
       p.protocol ≠ "https:" →
       validateImageUrl parse dns url =
         .error "Only HTTPS URLs are allowed for security reasons") := by
  refine ⟨?_, ?_, ?_, ?_⟩
  · intro parse dns url quad hscan h127
    have hor : ((⟨quad⟩ : String) == "127.0.0.1" || startsWithS ⟨quad⟩ "127.") = true := by
      rw [h127, Bool.or_true]
    rw [validateImageUrl_eq, validateT_preScan (preScan_of_127 hscan hor)]
  · intro parse dns url quad hscan h127 hpriv
    rw [validateImageUrl_eq, validateT_preScan (preScan_of_private hscan h127 hpriv)]
  · intro parse dns url hpre hparse
    rw [validateImageUrl_eq, validateT_parseFail hpre hparse]
  · intro parse dns url p hpre hparse hproto
    rw [validateImageUrl_eq, validateT_scheme hpre hparse hproto]

/-- Witness for C1 at concrete inputs: a mapped localhost literal, an
unparseable string carrying a mapped private literal, a plain unparseable
string, and an http URL. -/
theorem C1_preparse_scan_runs_first_witness :
    validateImageUrl parseSimpleUrl (fun _ => .enotfound)
      "https://[::ffff:127.0.0.1]/image.jpg" = .error "Access to localhost is not allowed" ∧
    validateImageUrl parseSimpleUrl (fun _ => .enotfound)
      "no url here [::ffff:10.0.0.1] either" =
      .error "Access to internal/private IP addresses is not allowed" ∧
    validateImageUrl parseSimpleUrl (fun _ => .enotfound) "notaurl" =
      .error ("Invalid URL: " ++ "notaurl") ∧
    validateImageUrl parseSimpleUrl (fun _ => .enotfound) "http://example.com/a" =
      .error "Only HTTPS URLs are allowed for security reasons" :=
  ⟨C1_preparse_scan_runs_first.1 parseSimpleUrl (fun _ => .enotfound)
      "https://[::ffff:127.0.0.1]/image.jpg" ['1', '2', '7', '.', '0', '.', '0', '.', '1']
      (by decide) (by decide),
   C1_preparse_scan_runs_first.2.1 parseSimpleUrl (fun _ => .enotfound)
      "no url here [::ffff:10.0.0.1] either" ['1', '0', '.', '0', '.', '0', '.', '1']
      (by decide) (by decide) (by decide),
   C1_preparse_scan_runs_first.2.2.1 parseSimpleUrl (fun _ => .enotfound) "notaurl"
      (by decide) (by decide),
   C1_preparse_scan_runs_first.2.2.2 parseSimpleUrl (fun _ => .enotfound)
      "http://example.com/a" ⟨"http:", "example.com"⟩ (by decide) (by decide) (by decide)⟩

/-! ### Claim C2 -/

theorem stripBrackets_mkIPv4_plain (a b c d : Nat) :
    stripBrackets (mkIPv4 a b c d) = mkIPv4 a b c d := by
  show (⟨stripBracketsL (mkIPv4 a b c d).data⟩ : String) = mkIPv4 a b c d
  rw [stripBracketsL_of_digit_or_dot mkIPv4_mem]

/-- C2 (amended): the classifier isBlockedIP is a pure predicate over the
address string (brackets stripped first) that returns true on the exact
blocked hosts, on every literal IPv4 address in the six blocked ranges
(quantified over octet values, whose canonical rendering is the only
spelling the Node IPv4 syntax accepts), on every address whose stripped
textual form starts with fe80:, fc00: or fd00: or equals ::1 (the textual
prefixes the source tests — not the full fe80::/10 and fc00::/7 CIDR
ranges), and false on the public address 8.8.8.8; and validateImageUrl
rejects every https URL whose cleaned hostname is a blocked exact host, a
blocked literal IP, or a domain whose DNS resolution yields a blocked
address. -/
theorem C2_blocked_hosts_and_ranges :
    (isBlockedIP "localhost" = true ∧ isBlockedIP "127.0.0.1" = true ∧
     isBlockedIP "::1" = true ∧ isBlockedIP "169.254.169.254" = true ∧
     isBlockedIP "metadata.google.internal" = true ∧ isBlockedIP "metadata" = true ∧
     isBlockedIP "8.8.8.8" = false) ∧
    (∀ a b c d : Nat, a ≤ 255 → b ≤ 255 → c ≤ 255 → d ≤ 255 →
       (a = 10 ∨ (a = 172 ∧ 16 ≤ b ∧ b ≤ 31) ∨ (a = 192 ∧ b = 168) ∨
        (a = 169 ∧ b = 254) ∨ a = 127 ∨ a = 0) →
       isIPv4 (mkIPv4 a b c d) = true ∧ isBlockedIP (mkIPv4 a b c d) = true) ∧
    (∀ s : String,
       startsWithS (stripBrackets s) "fe80:" = true ∨
       startsWithS (stripBrackets s) "fc00:" = true ∨
       startsWithS (stripBrackets s) "fd00:" = true ∨ stripBrackets s = "::1" →
       isBlockedIP s = true) ∧
    (∀ (parse : String → Option URLParts) (dns : String → DnsResult) (url : String)
       (p : URLParts), parse url = some p → p.protocol = "https:" →
       ((stripBrackets (toLowerS p.hostname) = "localhost" ∨
         stripBrackets (toLowerS p.hostname) = "metadata.google.internal" ∨
         stripBrackets (toLowerS p.hostname) = "metadata") ∨
        ((isIPv4 (stripBrackets (toLowerS p.hostname)) ||
          isIPv6 (stripBrackets (toLowerS p.hostname))) = true ∧
         isBlockedIP (stripBrackets (toLowerS p.hostname)) = true) ∨
        ((isIPv4 (stripBrackets (toLowerS p.hostname)) ||
          isIPv6 (stripBrackets (toLowerS p.hostname))) = false ∧
         ∃ a, dns (toLowerS p.hostname) = .ok a ∧ isBlockedIP a = true)) →
       ∃ e, validateImageUrl parse dns url = .error e) ∧
    (∀ a b c d : Nat, a ≤ 255 → b ≤ 255 → c ≤ 255 → d ≤ 255 →
       (a = 10 ∨ (a = 172 ∧ 16 ≤ b ∧ b ≤ 31) ∨ (a = 192 ∧ b = 168) ∨
        (a = 169 ∧ b = 254) ∨ a = 127 ∨ a = 0) →
       ∀ (parse : String → Option URLParts) (dns : String → DnsResult) (url : String),
         parse url = some ⟨"https:", mkIPv4 a b c d⟩ →
         ∃ e, validateImageUrl parse dns url = .error e) := by
  have hex : isBlockedIP "localhost" = true ∧ isBlockedIP "127.0.0.1" = true ∧
      isBlockedIP "::1" = true ∧ isBlockedIP "169.254.169.254" = true ∧
      isBlockedIP "metadata.google.internal" = true ∧ isBlockedIP "metadata" = true ∧
      isBlockedIP "8.8.8.8" = false := by
    refine ⟨by decide, by decide, by decide, by decide, by decide, by decide, by decide⟩
  have hrange : ∀ a b c d : Nat, a ≤ 255 → b ≤ 255 → c ≤ 255 → d ≤ 255 →
      (a = 10 ∨ (a = 172 ∧ 16 ≤ b ∧ b ≤ 31) ∨ (a = 192 ∧ b = 168) ∨
       (a = 169 ∧ b = 254) ∨ a = 127 ∨ a = 0) →
      isIPv4 (mkIPv4 a b c d) = true ∧ isBlockedIP (mkIPv4 a b c d) = true := by
    intro a b c d ha hb hc hd hr
    refine ⟨isIPv4_mkIPv4 ha hb hc hd, ?_⟩
    apply isBlockedIP_of_pattern
    rw [stripBrackets_mkIPv4_plain]
    exact isBlockedIP_mkIPv4 hr
  have htext : ∀ s : String,
      startsWithS (stripBrackets s) "fe80:" = true ∨
      startsWithS (stripBrackets s) "fc00:" = true ∨
      startsWithS (stripBrackets s) "fd00:" = true ∨ stripBrackets s = "::1" →
      isBlockedIP s = true := by
    intro s h
    apply isBlockedIP_of_pattern
    apply blockedPattern_of_starts
    rcases h with h | h | h | h
    · exact Or.inr (Or.inr (Or.inr (Or.inr (Or.inr (Or.inl h)))))
    · exact Or.inr (Or.inr (Or.inr (Or.inr (Or.inr (Or.inr (Or.inl h))))))
    · exact Or.inr (Or.inr (Or.inr (Or.inr (Or.inr (Or.inr (Or.inr (Or.inl h)))))))
    · exact Or.inr (Or.inr (Or.inr (Or.inr (Or.inr (Or.inr (Or.inr (Or.inr h)))))))
  have hrej : ∀ (parse : String → Option URLParts) (dns : String → DnsResult) (url : String)
      (p : URLParts), parse url = some p → p.protocol = "https:" →
      ((stripBrackets (toLowerS p.hostname) = "localhost" ∨
        stripBrackets (toLowerS p.hostname) = "metadata.google.internal" ∨
        stripBrackets (toLowerS p.hostname) = "metadata") ∨
       ((isIPv4 (stripBrackets (toLowerS p.hostname)) ||
         isIPv6 (stripBrackets (toLowerS p.hostname))) = true ∧
        isBlockedIP (stripBrackets (toLowerS p.hostname)) = true) ∨
       ((isIPv4 (stripBrackets (toLowerS p.hostname)) ||
         isIPv6 (stripBrackets (toLowerS p.hostname))) = false ∧
        ∃ a, dns (toLowerS p.hostname) = .ok a ∧ isBlockedIP a = true)) →
      ∃ e, validateImageUrl parse dns url = .error e := by
    intro parse dns url p hparse hproto hcase
    cases hpre : preScanError url with
    | some e =>
      exact ⟨e, by rw [validateImageUrl_eq, validateT_preScan hpre]⟩
    | none =>
      have hmain := @validateT_host parse dns url p hpre hparse hproto
      rcases hcase with hbl | ⟨hip, hb⟩ | ⟨hnip, a, hdns, hba⟩
      · exact ⟨_, by rw [validateImageUrl_eq, hmain, hostVerdict_blockedHost hbl]⟩
      · by_cases hbl : stripBrackets (toLowerS p.hostname) = "localhost" ∨
          stripBrackets (toLowerS p.hostname) = "metadata.google.internal" ∨
          stripBrackets (toLowerS p.hostname) = "metadata"
        · exact ⟨_, by rw [validateImageUrl_eq, hmain, hostVerdict_blockedHost hbl]⟩
        · exact ⟨_, by rw [validateImageUrl_eq, hmain, hostVerdict_blockedIPLit hbl hip hb]⟩
      · by_cases hbl : stripBrackets (toLowerS p.hostname) = "localhost" ∨
          stripBrackets (toLowerS p.hostname) = "metadata.google.internal" ∨
          stripBrackets (toLowerS p.hostname) = "metadata"
        · exact ⟨_, by rw [validateImageUrl_eq, hmain, hostVerdict_blockedHost hbl]⟩
        · exact ⟨_, by rw [validateImageUrl_eq, hmain,
            hostVerdict_dnsBlocked hbl hnip hdns hba]⟩
  refine ⟨hex, hrange, htext, hrej, ?_⟩
  intro a b c d ha hb hc hd hr parse dns url hparse
  have hclean : stripBrackets (toLowerS (URLParts.hostname ⟨"https:", mkIPv4 a b c d⟩)) =
      mkIPv4 a b c d := stripBrackets_mkIPv4 a b c d
  apply hrej parse dns url ⟨"https:", mkIPv4 a b c d⟩ hparse rfl
  right; left
  rw [hclean]
  constructor
  · rw [(hrange a b c d ha hb hc hd hr).1, Bool.true_or]
  · exact (hrange a b c d ha hb hc hd hr).2

/-- Witness for C2 at a concrete blocked literal: the class A address
10.0.0.1 behind https is rejected. -/
theorem C2_blocked_hosts_and_ranges_witness :
    ∃ e, validateImageUrl parseSimpleUrl (fun _ => .enotfound) "https://10.0.0.1/x" =
      .error e :=
  C2_blocked_hosts_and_ranges.2.2.2.2 10 0 0 1 (by decide) (by decide) (by decide)
    (by decide) (Or.inl rfl) parseSimpleUrl (fun _ => .enotfound) "https://10.0.0.1/x"
    (by decide)

/-- Counterexample for C2 as frozen: the address fe81::1 lies in the CIDR
range fe80::/10, is a syntactically valid IPv6 literal, yet the classifier
returns false on it and validateImageUrl accepts an https URL carrying it
as host, because the source tests the textual prefix fe80: rather than
the /10 range. -/
theorem C2_blocked_hosts_and_ranges_cex :
    inFe80Slash10 "fe81::1" = true ∧ isIPv6 "fe81::1" = true ∧
    isBlockedIP "fe81::1" = false ∧
    validateImageUrl parseSimpleUrl (fun _ => .enotfound) "https://[fe81::1]/x" =
      .ok "https://[fe81::1]/x" :=
  ⟨by decide, by decide, by decide, rfl⟩

/-! ### Claim C3 -/

/-- C3: on an https URL whose hostname is a domain (not a syntactically
valid literal IPv4 or IPv6 address, as decided by the Node checks), the
validator performs exactly one DNS resolution, of that lower-cased
hostname; a blocked resolved address yields the distinct
resolves-to-internal message, a nonexistent name yields the distinct
could-not-be-resolved message, any other lookup failure surfaces the
underlying message inside the resulting error, and a public resolved
address makes validation succeed returning the original URL string
unchanged. -/
theorem C3_domain_dns_resolution :
    ∀ (parse : String → Option URLParts) (dns : String → DnsResult) (url : String)
      (p : URLParts) (host clean : String),
      preScanError url = none → parse url = some p → p.protocol = "https:" →
      host = toLowerS p.hostname → clean = stripBrackets host →
      ¬(clean = "localhost" ∨ clean = "metadata.google.internal" ∨ clean = "metadata") →
      isIPv4 clean = false → isIPv6 clean = false →
      dnsCalls parse dns url = [host] ∧
      (∀ a, dns host = .ok a → isBlockedIP a = true →
        validateImageUrl parse dns url =
          .error ("Domain " ++ host ++ " resolves to internal/private IP address")) ∧
      (dns host = .enotfound →
        validateImageUrl parse dns url =
          .error ("Domain " ++ host ++ " could not be resolved")) ∧
      (∀ m, dns host = .err m →
        ∃ e, validateImageUrl parse dns url = .error e ∧ containsS e m = true) ∧
      (∀ a, dns host = .ok a → isBlockedIP a = false →
        validateImageUrl parse dns url = .ok url) := by
  intro parse dns url p host clean hpre hparse hproto hhost hclean hnb h4 h6
  subst hhost
  subst hclean
  have hmain := @validateT_host parse dns url p hpre hparse hproto
  have hnip : (isIPv4 (stripBrackets (toLowerS p.hostname)) ||
      isIPv6 (stripBrackets (toLowerS p.hostname))) = false := by
    rw [h4, h6]
    rfl
  refine ⟨?_, ?_, ?_, ?_, ?_⟩
  · show (validateImageUrlT parse dns url).2 = _
    rw [hmain]
    cases hdns : dns (toLowerS p.hostname) with
    | ok a =>
      by_cases hba : isBlockedIP a = true
      · rw [hostVerdict_dnsBlocked hnb hnip hdns hba]
      · rw [hostVerdict_dnsOk hnb hnip hdns (Bool.not_eq_true _ ▸ hba)]
    | enotfound => rw [hostVerdict_dnsNotFound hnb hnip hdns]
    | err m =>
      rw [hostVerdict_dnsErr hnb hnip hdns]
      by_cases hct : containsS m "resolves to internal" = true
      · rw [if_pos hct]
      · rw [if_neg hct]
  · intro a hdns hba
    rw [validateImageUrl_eq, hmain, hostVerdict_dnsBlocked hnb hnip hdns hba]
  · intro hdns
    rw [validateImageUrl_eq, hmain, hostVerdict_dnsNotFound hnb hnip hdns]
  · intro m hdns
    rw [validateImageUrl_eq, hmain, hostVerdict_dnsErr hnb hnip hdns]
    by_cases hct : containsS m "resolves to internal" = true
    · rw [if_pos hct]
      exact ⟨m, rfl, containsS_self m⟩
    · rw [if_neg hct]
      refine ⟨_, rfl, ?_⟩
      have : ("Failed to validate domain " ++ toLowerS p.hostname ++ ": ") ++ m =
          (⟨("Failed to validate domain " ++ toLowerS p.hostname ++ ": ").data ++ m.data⟩ :
            String) := (mkString_append _ m).symm
      rw [show "Failed to validate domain " ++ toLowerS p.hostname ++ ": " ++ m =
        ("Failed to validate domain " ++ toLowerS p.hostname ++ ": ") ++ m by
          rw [String.append_assoc, String.append_assoc], this]
      exact containsS_append_left _ m
  · intro a hdns hba
    rw [validateImageUrl_eq, hmain, hostVerdict_dnsOk hnb hnip hdns hba]

/-- Witness for C3 at a concrete domain resolving to a public address:
validation succeeds, returns the URL unchanged, and the DNS trace is the
single lower-cased hostname. -/
theorem C3_domain_dns_resolution_witness :
    validateImageUrl parseSimpleUrl (fun _ => DnsResult.ok "93.184.216.34")
      "https://example.com/img.png" = .ok "https://example.com/img.png" ∧
    dnsCalls parseSimpleUrl (fun _ => DnsResult.ok "93.184.216.34")
      "https://example.com/img.png" = ["example.com"] := by
  have h := C3_domain_dns_resolution parseSimpleUrl (fun _ => DnsResult.ok "93.184.216.34")
    "https://example.com/img.png" ⟨"https:", "example.com"⟩ "example.com" "example.com"
    (by decide) (by decide) rfl (by decide) (by decide) (by decide) (by decide) (by decide)
  exact ⟨h.2.2.2.2 "93.184.216.34" rfl (by decide), h.1⟩

/-! ### Claim C4 -/

/-- C4 (amended): an https URL with hostname localhost is rejected with
the same cloud-metadata-endpoints phrasing as the metadata hosts (the
source places localhost in the same blocked-host list with a single
message; a distinct localhost phrasing appears only in the pre-parse
mapped-IPv6 scan); a blocked literal IP host gets the private/internal
phrasing and a domain resolving to a blocked address gets the
resolves-to-internal phrasing, and these phrasings are distinct from the
metadata-endpoint message. -/
theorem C4_error_message_phrasing :
    (∀ (parse : String → Option URLParts) (dns : String → DnsResult) (url : String)
       (p : URLParts), preScanError url = none → parse url = some p →
       p.protocol = "https:" →
       (stripBrackets (toLowerS p.hostname) = "localhost" ∨
        stripBrackets (toLowerS p.hostname) = "metadata.google.internal" ∨
        stripBrackets (toLowerS p.hostname) = "metadata") →
       validateImageUrl parse dns url =
         .error "Access to cloud metadata endpoints is not allowed") ∧
    (∀ (parse : String → Option URLParts) (dns : String → DnsResult) (url : String)
       (p : URLParts), preScanError url = none → parse url = some p →
       p.protocol = "https:" →
       ¬(stripBrackets (toLowerS p.hostname) = "localhost" ∨
         stripBrackets (toLowerS p.hostname) = "metadata.google.internal" ∨
         stripBrackets (toLowerS p.hostname) = "metadata") →
       (isIPv4 (stripBrackets (toLowerS p.hostname)) ||
        isIPv6 (stripBrackets (toLowerS p.hostname))) = true →
       isBlockedIP (stripBrackets (toLowerS p.hostname)) = true →
       validateImageUrl parse dns url =
         .error "Access to internal/private IP addresses is not allowed") ∧
    ((("Access to cloud metadata endpoints is not allowed" : String) ≠
        "Access to internal/private IP addresses is not allowed") ∧
     (∀ host : String, ("Access to cloud metadata endpoints is not allowed" : String) ≠
        "Domain " ++ host ++ " resolves to internal/private IP address") ∧
     (∀ host : String, ("Access to internal/private IP addresses is not allowed" : String) ≠
        "Domain " ++ host ++ " resolves to internal/private IP address")) ∧
    (∀ url e, preScanError url = some e →
       e = "Access to localhost is not allowed" ∨
       e = "Access to internal/private IP addresses is not allowed") := by
  refine ⟨?_, ?_, ⟨by decide, ?_, ?_⟩, ?_⟩
  · intro parse dns url p hpre hparse hproto hbl
    rw [validateImageUrl_eq, @validateT_host parse dns url p hpre hparse hproto,
      hostVerdict_blockedHost hbl]
  · intro parse dns url p hpre hparse hproto hnb hip hb
    rw [validateImageUrl_eq, @validateT_host parse dns url p hpre hparse hproto,
      hostVerdict_blockedIPLit hnb hip hb]
  · intro host heq
    have h := congrArg (fun s : String => s.data.head?) heq
    simp only [String.data_append, List.cons_append, List.head?_cons] at h
    exact absurd h (by decide)
  · intro host heq
    have h := congrArg (fun s : String => s.data.head?) heq
    simp only [String.data_append, List.cons_append, List.head?_cons] at h
    exact absurd h (by decide)
  · intro url e h
    cases hscan : scanMapped url.data with
    | none =>
      have hnone : preScanError url = none := by unfold preScanError; rw [hscan]
      rw [hnone] at h
      exact absurd h (by simp)
    | some quad =>
      by_cases h127 : ((⟨quad⟩ : String) == "127.0.0.1" || startsWithS ⟨quad⟩ "127.") = true
      · rw [preScan_of_127 hscan h127] at h
        exact Or.inl (Option.some.inj h).symm
      · have h127f : ((⟨quad⟩ : String) == "127.0.0.1" || startsWithS ⟨quad⟩ "127.") = false := by
          cases hb : ((⟨quad⟩ : String) == "127.0.0.1" || startsWithS ⟨quad⟩ "127.") with
          | true => exact absurd hb h127
          | false => rfl
        by_cases hpriv : privateQuadBlocked ⟨quad⟩ = true
        · rw [preScan_of_private hscan h127f hpriv] at h
          exact Or.inr (Option.some.inj h).symm
        · have hnone : preScanError url = none := by
            unfold preScanError
            rw [hscan]
            show (if ((⟨quad⟩ : String) == "127.0.0.1" || startsWithS ⟨quad⟩ "127.") = true
              then _ else _) = none
            rw [if_neg h127, if_neg hpriv]
          rw [hnone] at h
          exact absurd h (by simp)

/-- Witness for C4 at a concrete metadata host. -/
theorem C4_error_message_phrasing_witness :
    validateImageUrl parseSimpleUrl (fun _ => .enotfound) "https://metadata/x" =
      .error "Access to cloud metadata endpoints is not allowed" :=
  C4_error_message_phrasing.1 parseSimpleUrl (fun _ => .enotfound) "https://metadata/x"
    ⟨"https:", "metadata"⟩ (by decide) (by decide) (by decide) (by decide)

/-- Counterexample for C4 as frozen: an https URL with hostname localhost
is rejected with exactly the same cloud-metadata message as the metadata
hosts, and that message contains no localhost phrasing at all, so the
claimed distinct localhost phrasing does not exist in this branch. -/
theorem C4_error_message_phrasing_cex :
    validateImageUrl parseSimpleUrl (fun _ => .enotfound) "https://localhost/image.jpg" =
      .error "Access to cloud metadata endpoints is not allowed" ∧
    validateImageUrl parseSimpleUrl (fun _ => .enotfound) "https://metadata/image.jpg" =
      .error "Access to cloud metadata endpoints is not allowed" ∧
    containsS "Access to cloud metadata endpoints is not allowed" "localhost" = false :=
  ⟨rfl, rfl, by decide⟩

/-! ### Claims C5 and C10: the file content validator -/

theorem take3_eq_iff (l : List Nat) (x y z : Nat) :
    l.take 3 = [x, y, z] ↔ (l[0]? = some x ∧ l[1]? = some y ∧ l[2]? = some z) := by
  match l with
  | [] => simp
  | [a] => simp
  | [a, b] => simp
  | a :: b :: c :: rest => simp [List.take_succ_cons]

theorem take4_eq_iff (l : List Nat) (x y z w : Nat) :
    l.take 4 = [x, y, z, w] ↔
      (l[0]? = some x ∧ l[1]? = some y ∧ l[2]? = some z ∧ l[3]? = some w) := by
  match l with
  | [] => simp
  | [a] => simp
  | [a, b] => simp
  | [a, b, c] => simp
  | a :: b :: c :: d :: rest => simp [List.take_succ_cons]

theorem isPNGb_iff (b : List Nat) : isPNGb (b.take 4) = true ↔ pngSig b := by
  simp only [isPNGb, pngSig, List.getElem?_take, Bool.and_eq_true, beq_iff_eq]
  norm_num
  tauto

theorem isJPEGb_iff (b : List Nat) : isJPEGb (b.take 4) = true ↔ jpegSig b := by
  simp only [isJPEGb, jpegSig, List.getElem?_take, Bool.and_eq_true, beq_iff_eq]
  norm_num
  tauto

theorem isGIFb_iff (b : List Nat) : isGIFb (b.take 4) = true ↔ gifSig b := by
  unfold isGIFb gifSig
  rw [List.take_take, beq_iff_eq]
  show (List.take 3 b = [0x47, 0x49, 0x46]) ↔ _
  rw [take3_eq_iff]

theorem isWebPb_iff (b : List Nat) : isWebPb b = true ↔ webpSig b := by
  unfold isWebPb webpSig
  rw [beq_iff_eq, take4_eq_iff]
  simp [List.getElem?_drop]

theorem magicOk_iff (b : List Nat) : magicOk b = true ↔
    (pngSig b ∨ jpegSig b ∨ gifSig b ∨ webpSig b) := by
  unfold magicOk
  rw [Bool.or_eq_true, Bool.or_eq_true, Bool.or_eq_true,
    isPNGb_iff, isJPEGb_iff, isGIFb_iff, isWebPb_iff]
  tauto

theorem validateImagePath_ok_buffer {readF : String → Except FileErr (List Nat)}
    {filepath : String} {buffer : List Nat} (h : readF filepath = .ok buffer) :
    validateImagePath readF filepath =
      (if buffer.length = 0 then .error ("Image file is empty: " ++ filepath)
       else if !magicOk buffer then
         .error ("File does not appear to be a valid image (PNG, JPEG, WebP, or GIF): " ++
           filepath)
       else .ok filepath) := by
  unfold validateImagePath
  rw [h]

theorem validateImagePath_err {readF : String → Except FileErr (List Nat)}
    {filepath : String} {e : FileErr} (h : readF filepath = .error e) :
    validateImagePath readF filepath =
      (if e.code = some "ENOENT" then .error ("Image file not found: " ++ filepath)
       else if e.code = some "EACCES" then
         .error ("Permission denied reading image file: " ++ filepath)
       else .error e.message) := by
  unfold validateImagePath
  rw [h]

theorem append_ne_of_getElem {t1 t2 p : String} (i : Nat)
    (h1 : i < t1.data.length) (h2 : i < t2.data.length)
    (hne : t1.data[i]? ≠ t2.data[i]?) : t1 ++ p ≠ t2 ++ p := by
  intro heq
  have h := congrArg (fun s : String => s.data[i]?) heq
  simp only [String.data_append] at h
  rw [List.getElem?_append_left h1, List.getElem?_append_left h2] at h
  exact hne h

/-- C5: validateImagePath succeeds, returning the file path, exactly when
the file is readable, non-empty, and its bytes match one of the four
recognized signatures (PNG bytes 0 to 3, JPEG bytes 0 to 2, GIF bytes
0 to 2 as ASCII, WEBP bytes 8 to 11 as ASCII); and the four failure
cases — empty file, ENOENT, EACCES, unrecognized format — produce four
pairwise distinct messages. -/
theorem C5_validateImagePath_spec :
    (∀ (readF : String → Except FileErr (List Nat)) (filepath : String),
       validateImagePath readF filepath = .ok filepath ↔
       ∃ buffer, readF filepath = .ok buffer ∧ buffer ≠ [] ∧
         (pngSig buffer ∨ jpegSig buffer ∨ gifSig buffer ∨ webpSig buffer)) ∧
    (∀ (readF : String → Except FileErr (List Nat)) (filepath : String),
       readF filepath = .ok [] →
       validateImagePath readF filepath = .error ("Image file is empty: " ++ filepath)) ∧
    (∀ (readF : String → Except FileErr (List Nat)) (filepath : String) (e : FileErr),
       readF filepath = .error e → e.code = some "ENOENT" →
       validateImagePath readF filepath = .error ("Image file not found: " ++ filepath)) ∧
    (∀ (readF : String → Except FileErr (List Nat)) (filepath : String) (e : FileErr),
       readF filepath = .error e → e.code ≠ some "ENOENT" → e.code = some "EACCES" →
       validateImagePath readF filepath =
         .error ("Permission denied reading image file: " ++ filepath)) ∧
    (∀ (readF : String → Except FileErr (List Nat)) (filepath : String) (buffer : List Nat),
       readF filepath = .ok buffer → buffer ≠ [] → magicOk buffer = false →
       validateImagePath readF filepath =
         .error ("File does not appear to be a valid image (PNG, JPEG, WebP, or GIF): " ++
           filepath)) ∧
    (∀ p : String,
       ("Image file is empty: " ++ p ≠ "Image file not found: " ++ p) ∧
       ("Image file is empty: " ++ p ≠ "Permission denied reading image file: " ++ p) ∧
       ("Image file is empty: " ++ p ≠
         "File does not appear to be a valid image (PNG, JPEG, WebP, or GIF): " ++ p) ∧
       ("Image file not found: " ++ p ≠ "Permission denied reading image file: " ++ p) ∧
       ("Image file not found: " ++ p ≠
         "File does not appear to be a valid image (PNG, JPEG, WebP, or GIF): " ++ p) ∧
       ("Permission denied reading image file: " ++ p ≠
         "File does not appear to be a valid image (PNG, JPEG, WebP, or GIF): " ++ p)) := by
  refine ⟨?_, ?_, ?_, ?_, ?_, ?_⟩
  · intro readF filepath
    constructor
    · intro hok
      cases hread : readF filepath with
      | error e =>
        rw [validateImagePath_err hread] at hok
        by_cases h1 : e.code = some "ENOENT"
        · rw [if_pos h1] at hok; exact absurd hok (by simp)
        · rw [if_neg h1] at hok
          by_cases h2 : e.code = some "EACCES"
          · rw [if_pos h2] at hok; exact absurd hok (by simp)
          · rw [if_neg h2] at hok; exact absurd hok (by simp)
      | ok buffer =>
        rw [validateImagePath_ok_buffer hread] at hok
        by_cases h1 : buffer.length = 0
        · rw [if_pos h1] at hok; exact absurd hok (by simp)
        · rw [if_neg h1] at hok
          by_cases h2 : magicOk buffer = true
          · exact ⟨buffer, rfl, fun hnil => h1 (by rw [hnil]; rfl), (magicOk_iff _).mp h2⟩
          · rw [if_pos (by simp [Bool.not_eq_true _ ▸ h2])] at hok
            exact absurd hok (by simp)
    · rintro ⟨buffer, hread, hne, hsig⟩
      rw [validateImagePath_ok_buffer hread,
        if_neg (by simpa [List.length_eq_zero] using hne),
        if_neg (by simp [(magicOk_iff _).mpr hsig])]
  · intro readF filepath hread
    rw [validateImagePath_ok_buffer hread]
    simp
  · intro readF filepath e hread h1
    rw [validateImagePath_err hread, if_pos h1]
  · intro readF filepath e hread h1 h2
    rw [validateImagePath_err hread, if_neg h1, if_pos h2]
  · intro readF filepath buffer hread hne hmag
    rw [validateImagePath_ok_buffer hread,
      if_neg (by simpa [List.length_eq_zero] using hne), if_pos (by simp [hmag])]
  · intro p
    exact ⟨append_ne_of_getElem 11 (by decide) (by decide) (by decide),
      append_ne_of_getElem 0 (by decide) (by decide) (by decide),
      append_ne_of_getElem 0 (by decide) (by decide) (by decide),
      append_ne_of_getElem 0 (by decide) (by decide) (by decide),
      append_ne_of_getElem 0 (by decide) (by decide) (by decide),
      append_ne_of_getElem 0 (by decide) (by decide) (by decide)⟩

/-- Witness for C5: a four-byte PNG header is accepted. -/
theorem C5_validateImagePath_spec_witness :
    validateImagePath (fun _ => .ok [0x89, 0x50, 0x4E, 0x47]) "img.png" = .ok "img.png" :=
  (C5_validateImagePath_spec.1 (fun _ => .ok [0x89, 0x50, 0x4E, 0x47]) "img.png").mpr
    ⟨[0x89, 0x50, 0x4E, 0x47], rfl, by decide, Or.inl ⟨rfl, rfl, rfl, rfl⟩⟩

theorem magicOk_take12 (b : List Nat) : magicOk b = magicOk (b.take 12) := by
  unfold magicOk isWebPb
  rw [List.take_take, show (4 ⊓ 12) = 4 from rfl, List.drop_take,
    show (12 - 8) = 4 from rfl, List.take_take, show (4 ⊓ 4) = 4 from rfl]

/-- C10 (amended): the magic-byte check is total on every buffer
regardless of length — it inspects only bytes 0 to 11 (buffers agreeing
on their first twelve bytes classify identically, and out-of-range
indexing yields a failed comparison rather than a fault); a buffer whose
bytes 8 to 11 spell WEBP is accepted irrespective of all other content;
and a non-empty buffer shorter than 12 bytes is rejected with the
valid-image error unless its leading bytes already match the JPEG, GIF,
or PNG signature (PNG needs only bytes 0 to 3, so a 4-byte PNG header is
also accepted — the frozen claim listed only JPEG and GIF here). -/
theorem C10_magic_check_totality :
    (∀ b1 b2 : List Nat, b1.take 12 = b2.take 12 → magicOk b1 = magicOk b2) ∧
    (∀ b : List Nat, webpSig b →
       ∀ (readF : String → Except FileErr (List Nat)) (p : String), readF p = .ok b →
       validateImagePath readF p = .ok p) ∧
    (∀ (b : List Nat) (readF : String → Except FileErr (List Nat)) (p : String),
       readF p = .ok b → b ≠ [] → b.length < 12 →
       validateImagePath readF p =
         .error ("File does not appear to be a valid image (PNG, JPEG, WebP, or GIF): " ++ p) ∨
       (validateImagePath readF p = .ok p ∧ (pngSig b ∨ jpegSig b ∨ gifSig b))) := by
  refine ⟨?_, ?_, ?_⟩
  · intro b1 b2 h
    rw [magicOk_take12 b1, magicOk_take12 b2, h]
  · intro b hwebp readF p hread
    have hlen : 11 < b.length := by
      obtain ⟨h11, -⟩ := List.getElem?_eq_some.mp hwebp.2.2.2
      exact h11
    rw [validateImagePath_ok_buffer hread, if_neg (by omega),
      if_neg (by simp [(magicOk_iff b).mpr (Or.inr (Or.inr (Or.inr hwebp)))])]
  · intro b readF p hread hne hlen
    cases hmag : magicOk b with
    | false =>
      left
      rw [validateImagePath_ok_buffer hread,
        if_neg (by simpa [List.length_eq_zero] using hne), if_pos (by simp [hmag])]
    | true =>
      right
      refine ⟨by rw [validateImagePath_ok_buffer hread,
        if_neg (by simpa [List.length_eq_zero] using hne), if_neg (by simp [hmag])], ?_⟩
      rcases (magicOk_iff b).mp hmag with h | h | h | h
      · exact Or.inl h
      · exact Or.inr (Or.inl h)
      · exact Or.inr (Or.inr h)
      · obtain ⟨h11, -⟩ := List.getElem?_eq_some.mp h.2.2.2
        omega

/-- Witness for C10: a 12-byte buffer whose only structure is the WEBP
tag at bytes 8 to 11 is accepted. -/
theorem C10_magic_check_totality_witness :
    validateImagePath (fun _ => .ok [1, 2, 3, 4, 5, 6, 7, 8, 0x57, 0x45, 0x42, 0x50])
      "f.webp" = .ok "f.webp" :=
  C10_magic_check_totality.2.1 [1, 2, 3, 4, 5, 6, 7, 8, 0x57, 0x45, 0x42, 0x50]
    ⟨rfl, rfl, rfl, rfl⟩ (fun _ => .ok [1, 2, 3, 4, 5, 6, 7, 8, 0x57, 0x45, 0x42, 0x50])
    "f.webp" rfl

/-- Counterexample for C10 as frozen: a four-byte buffer carrying the PNG
header is shorter than 12 bytes and is accepted, although its leading
bytes match neither the JPEG nor the GIF signature, so the frozen
dichotomy (rejected unless the leading bytes match JPEG or GIF) misses
the PNG case. -/
theorem C10_magic_check_totality_cex :
    ([0x89, 0x50, 0x4E, 0x47] : List Nat).length < 12 ∧
    validateImagePath (fun _ => .ok [0x89, 0x50, 0x4E, 0x47]) "short.png" =
      .ok "short.png" ∧
    ¬ jpegSig [0x89, 0x50, 0x4E, 0x47] ∧ ¬ gifSig [0x89, 0x50, 0x4E, 0x47] := by
  refine ⟨by decide, rfl, ?_, ?_⟩
  · rintro ⟨h1, -, -⟩
    exact absurd h1 (by decide)
  · rintro ⟨h1, -, -⟩
    exact absurd h1 (by decide)

/-! ### Claim C6: the size, redirect, timeout and content-type gates -/

theorem ne_append_of_getElem {t1 t2 p : String} (i : Nat)
    (h2 : i < t2.data.length) (hne : t1.data[i]? ≠ t2.data[i]?) : t1 ≠ t2 ++ p := by
  intro heq
  have h := congrArg (fun s : String => s.data[i]?) heq
  simp only [String.data_append] at h
  rw [List.getElem?_append_left h2] at h
  exact hne h

/-- C6: loadImageAsBuffer, after path validation succeeds, rejects with
the size-specific 50MB message exactly when the file exceeds
50 * 1024 * 1024 bytes (and that message is distinct from the I/O
messages); downloadImageAsBuffer validates the URL first (a validation
error propagates unchanged, for every http collaborator), performs the
request with the fixed axios options — 60 second timeout, 50 MiB
maximum content length, 5 redirects —, propagates transfer errors, and
after transfer succeeds exactly when the content-type header, cut before
any semicolon parameter and trimmed, is one of image/png, image/jpeg,
image/webp, image/gif. -/
theorem C6_bounded_acquisition :
    (∀ (readF : String → Except FileErr (List Nat)) (imagePath : String) (buffer : List Nat),
       readF imagePath = .ok buffer → validateImagePath readF imagePath = .ok imagePath →
       loadImageAsBuffer readF imagePath =
         (if buffer.length > 50 * 1024 * 1024 then
            .error "Image file size exceeds maximum of 50MB"
          else .ok buffer)) ∧
    (∀ p : String,
       (("Image file size exceeds maximum of 50MB" : String) ≠
         "Image file not found: " ++ p) ∧
       (("Image file size exceeds maximum of 50MB" : String) ≠
         "Permission denied reading image file: " ++ p) ∧
       (("Image file size exceeds maximum of 50MB" : String) ≠
         "Image file is empty: " ++ p)) ∧
    (axiosGetConfig.timeout = 60000 ∧ axiosGetConfig.maxContentLength = 50 * 1024 * 1024 ∧
     axiosGetConfig.maxRedirects = 5) ∧
    (∀ (parse : String → Option URLParts) (dns : String → DnsResult)
       (http : String → ReqConfig → Except String HttpResp) (url e : String),
       validateImageUrl parse dns url = .error e →
       downloadImageAsBuffer parse dns http url = .error e) ∧
    (∀ (parse : String → Option URLParts) (dns : String → DnsResult)
       (http : String → ReqConfig → Except String HttpResp) (url u e : String),
       validateImageUrl parse dns url = .ok u → http u axiosGetConfig = .error e →
       downloadImageAsBuffer parse dns http url = .error e) ∧
    (∀ (parse : String → Option URLParts) (dns : String → DnsResult)
       (http : String → ReqConfig → Except String HttpResp) (url u : String)
       (resp : HttpResp),
       validateImageUrl parse dns url = .ok u → http u axiosGetConfig = .ok resp →
       (downloadImageAsBuffer parse dns http url = .ok resp.body ↔
        ∃ hdr, resp.contentTypeHdr = some hdr ∧ normContentType hdr ∈ allowedMimeTypes)) := by
  refine ⟨?_, ?_, ⟨rfl, rfl, rfl⟩, ?_, ?_, ?_⟩
  · intro readF imagePath buffer hread hval
    unfold loadImageAsBuffer
    rw [hval, hread]
  · intro p
    exact ⟨ne_append_of_getElem 11 (by decide) (by decide),
      ne_append_of_getElem 0 (by decide) (by decide),
      ne_append_of_getElem 11 (by decide) (by decide)⟩
  · intro parse dns http url e hv
    unfold downloadImageAsBuffer
    rw [hv]
  · intro parse dns http url u e hv hh
    unfold downloadImageAsBuffer
    rw [hv]
    show fetchStage http u = Except.error e
    unfold fetchStage
    rw [hh]
  · intro parse dns http url u resp hv hh
    unfold downloadImageAsBuffer
    rw [hv]
    show fetchStage http u = Except.ok resp.body ↔ _
    unfold fetchStage
    rw [hh]
    show contentTypeStage resp = Except.ok resp.body ↔ _
    unfold contentTypeStage
    cases hct : resp.contentTypeHdr with
    | none =>
      simp
    | some hdr =>
      show (if (decide (normContentType hdr = "") ||
          !allowedMimeTypes.contains (normContentType hdr)) = true
        then Except.error ("Invalid Content-Type: " ++ normContentType hdr ++
          ". Expected image/* (png, jpeg, webp, gif)")
        else Except.ok resp.body) = Except.ok resp.body ↔ _
      cases hin : allowedMimeTypes.contains (normContentType hdr) with
      | true =>
        have hne : ¬ (normContentType hdr = "") := by
          intro he
          rw [he] at hin
          exact absurd hin (by decide)
        rw [if_neg (by simp [hin, hne])]
        constructor
        · intro _
          exact ⟨hdr, rfl, List.elem_iff.mp hin⟩
        · intro _
          rfl
      | false =>
        rw [if_pos (by simp [hin])]
        constructor
        · intro h
          exact absurd h (by simp)
        · rintro ⟨hdr2, hh2, hmem⟩
          have heq : hdr = hdr2 := Option.some.inj hh2
          subst heq
          have hcontra : allowedMimeTypes.contains (normContentType hdr) = true :=
            List.elem_iff.mpr hmem
          rw [hin] at hcontra
          exact absurd hcontra Bool.false_ne_true

/-- Witness for C6: a small validated file loads whole (the size branch
evaluates to the non-error side) and a download whose response carries a
parameterized image/png content type succeeds with the response body. -/
theorem C6_bounded_acquisition_witness :
    loadImageAsBuffer (fun _ => .ok [0x89, 0x50, 0x4E, 0x47]) "img.png" =
      (if ([0x89, 0x50, 0x4E, 0x47] : List Nat).length > 50 * 1024 * 1024 then
         .error "Image file size exceeds maximum of 50MB"
       else .ok [0x89, 0x50, 0x4E, 0x47]) ∧
    downloadImageAsBuffer parseSimpleUrl (fun _ => DnsResult.ok "93.184.216.34")
      (fun _ _ => .ok ⟨some "image/png; charset=binary", [0x89, 0x50]⟩)
      "https://example.com/a.png" = .ok [0x89, 0x50] :=
  ⟨C6_bounded_acquisition.1 (fun _ => .ok [0x89, 0x50, 0x4E, 0x47]) "img.png"
      [0x89, 0x50, 0x4E, 0x47] rfl rfl,
   (C6_bounded_acquisition.2.2.2.2.2 parseSimpleUrl (fun _ => DnsResult.ok "93.184.216.34")
      (fun _ _ => .ok ⟨some "image/png; charset=binary", [0x89, 0x50]⟩)
      "https://example.com/a.png" "https://example.com/a.png"
      ⟨some "image/png; charset=binary", [0x89, 0x50]⟩ rfl rfl).mpr
      ⟨"image/png; charset=binary", rfl, by decide⟩⟩

/-! ### Claim C8: the square-image assertion -/

/-- C8: assertSquareImage, on an in-memory buffer or a file path,
succeeds exactly when the decoded width equals the decoded height; a
non-square image fails with the message reporting the actual width and
height; and every decoder failure (including the unsupported-input case)
is wrapped into the single unable-to-read-dimensions error carrying the
underlying cause message. -/
theorem C8_assertSquareImage_spec :
    (∀ (szBuf : List Nat → Except String Dimensions)
       (szFile : String → Except String Dimensions) (b : List Nat) (w h : Nat),
       szBuf b = .ok ⟨w, h⟩ →
       ((assertSquareImage szBuf szFile (.buffer b) = .ok () ↔ w = h) ∧
        (w ≠ h → assertSquareImage szBuf szFile (.buffer b) =
          .error ("Image must be square. Received " ++ (⟨natDigits w⟩ : String) ++ "x" ++
            (⟨natDigits h⟩ : String))))) ∧
    (∀ (szBuf : List Nat → Except String Dimensions)
       (szFile : String → Except String Dimensions) (p : String) (w h : Nat),
       szFile p = .ok ⟨w, h⟩ →
       ((assertSquareImage szBuf szFile (.path p) = .ok () ↔ w = h) ∧
        (w ≠ h → assertSquareImage szBuf szFile (.path p) =
          .error ("Image must be square. Received " ++ (⟨natDigits w⟩ : String) ++ "x" ++
            (⟨natDigits h⟩ : String))))) ∧
    (∀ (szBuf : List Nat → Except String Dimensions)
       (szFile : String → Except String Dimensions) (b : List Nat) (m : String),
       szBuf b = .error m →
       assertSquareImage szBuf szFile (.buffer b) =
         .error ("Unable to read image dimensions: " ++ m)) ∧
    (∀ (szBuf : List Nat → Except String Dimensions)
       (szFile : String → Except String Dimensions) (p m : String),
       szFile p = .error m →
       assertSquareImage szBuf szFile (.path p) =
         .error ("Unable to read image dimensions: " ++ m)) := by
  have hok : ∀ (szBuf : List Nat → Except String Dimensions)
      (szFile : String → Except String Dimensions) (src : ImageSource) (w h : Nat),
      decodeDims szBuf szFile src = .ok ⟨w, h⟩ →
      ((assertSquareImage szBuf szFile src = .ok () ↔ w = h) ∧
       (w ≠ h → assertSquareImage szBuf szFile src =
         .error ("Image must be square. Received " ++ (⟨natDigits w⟩ : String) ++ "x" ++
           (⟨natDigits h⟩ : String)))) := by
    intro szBuf szFile src w h hdec
    unfold assertSquareImage
    rw [hdec]
    show ((if w ≠ h then _ else _) = _ ↔ _) ∧ (_ → (if w ≠ h then _ else _) = _)
    constructor
    · by_cases hwh : w = h
      · rw [if_neg (by simpa using hwh)]
        simp [hwh]
      · rw [if_pos (by simpa using hwh)]
        simp [hwh]
    · intro hwh
      rw [if_pos (by simpa using hwh)]
  refine ⟨?_, ?_, ?_, ?_⟩
  · intro szBuf szFile b w h hdec
    exact hok szBuf szFile (.buffer b) w h hdec
  · intro szBuf szFile p w h hdec
    exact hok szBuf szFile (.path p) w h hdec
  · intro szBuf szFile b m hdec
    unfold assertSquareImage
    rw [show decodeDims szBuf szFile (.buffer b) = .error m from hdec]
  · intro szBuf szFile p m hdec
    unfold assertSquareImage
    rw [show decodeDims szBuf szFile (.path p) = .error m from hdec]

/-- Witness for C8: a 4 by 4 image is accepted from bytes and from a
path, and a 4 by 2 image is rejected with the message reporting 4x2. -/
theorem C8_assertSquareImage_spec_witness :
    assertSquareImage (fun _ => .ok ⟨4, 4⟩) (fun _ => .ok ⟨4, 4⟩) (.buffer [1]) = .ok () ∧
    assertSquareImage (fun _ => .ok ⟨4, 4⟩) (fun _ => .ok ⟨4, 4⟩) (.path "sq.bmp") = .ok () ∧
    assertSquareImage (fun _ => .ok ⟨4, 2⟩) (fun _ => .ok ⟨4, 2⟩) (.buffer [1]) =
      .error ("Image must be square. Received " ++ (⟨natDigits 4⟩ : String) ++ "x" ++
        (⟨natDigits 2⟩ : String)) :=
  ⟨((C8_assertSquareImage_spec.1 (fun _ => .ok ⟨4, 4⟩) (fun _ => .ok ⟨4, 4⟩) [1] 4 4
      rfl).1).mpr rfl,
   ((C8_assertSquareImage_spec.2.1 (fun _ => .ok ⟨4, 4⟩) (fun _ => .ok ⟨4, 4⟩) "sq.bmp" 4 4
      rfl).1).mpr rfl,
   (C8_assertSquareImage_spec.1 (fun _ => .ok ⟨4, 2⟩) (fun _ => .ok ⟨4, 2⟩) [1] 4 2
      rfl).2 (by decide)⟩

/-! ### Claim C9: API key redaction -/

/-- C9 (amended): redactApiKey returns the fixed mask for null,
undefined, non-string and shorter-than-4 inputs, and otherwise the mask
followed by exactly the last 4 characters; the output is a function of
the last 4 characters alone, so at most the last 4 characters of the key
are ever disclosed.  (The frozen clause that the full key never appears
in the output is false: for a 4-character key the output ends with the
entire key — see the counterexample.) -/
theorem C9_redactApiKey_spec :
    (redactApiKey .nullOrUndef = "xxx...xxx") ∧
    (redactApiKey .nonString = "xxx...xxx") ∧
    (∀ s : String, s.length < 4 → redactApiKey (.str s) = "xxx...xxx") ∧
    (∀ s : String, 4 ≤ s.length →
       redactApiKey (.str s) = "xxx..." ++ (⟨s.data.drop (s.data.length - 4)⟩ : String)) ∧
    (∀ s t : String, 4 ≤ s.length → 4 ≤ t.length →
       s.data.drop (s.data.length - 4) = t.data.drop (t.data.length - 4) →
       redactApiKey (.str s) = redactApiKey (.str t)) := by
  have hlong : ∀ s : String, 4 ≤ s.length →
      redactApiKey (.str s) = "xxx..." ++ (⟨s.data.drop (s.data.length - 4)⟩ : String) := by
    intro s hs
    have hne : ¬ (s = "") := by
      intro he
      rw [he] at hs
      exact absurd hs (by decide)
    unfold redactApiKey
    show (if (decide (s = "") || decide (s.length < 4)) = true then "xxx...xxx"
      else "xxx..." ++ (⟨s.data.drop (s.data.length - 4)⟩ : String)) = _
    rw [if_neg (by simp only [Bool.or_eq_true, decide_eq_true_eq]; push_neg; exact ⟨hne, by omega⟩)]
  refine ⟨rfl, rfl, ?_, hlong, ?_⟩
  · intro s hs
    unfold redactApiKey
    show (if (decide (s = "") || decide (s.length < 4)) = true then "xxx...xxx"
      else "xxx..." ++ (⟨s.data.drop (s.data.length - 4)⟩ : String)) = _
    rw [if_pos (by simp only [Bool.or_eq_true, decide_eq_true_eq]; exact Or.inr hs)]
  · intro s t hs ht hdrop
    rw [hlong s hs, hlong t ht, hdrop]

/-- Witness for C9: a 15-character key redacts to the mask plus its last
four characters. -/
theorem C9_redactApiKey_spec_witness :
    redactApiKey (.str "abcdef123456789") =
      "xxx..." ++ (⟨("abcdef123456789" : String).data.drop
        (("abcdef123456789" : String).data.length - 4)⟩ : String) :=
  C9_redactApiKey_spec.2.2.2.1 "abcdef123456789" (by decide)

/-- Counterexample for C9 as frozen: the 4-character key abcd is not
shorter than 4, so it is redacted to xxx...abcd, in which the full key
appears as a substring. -/
theorem C9_redactApiKey_spec_cex :
    4 ≤ ("abcd" : String).length ∧ redactApiKey (.str "abcd") = "xxx...abcd" ∧
    containsS "xxx...abcd" "abcd" = true :=
  ⟨by decide, rfl, by decide⟩

/-! ### Claim C7: the filename sanitizer -/

theorem digit_ne {x t : Char} (ht : t.isDigit = false) (hx : x.isDigit = true) : x ≠ t := by
  intro he
  rw [he, ht] at hx
  exact Bool.false_ne_true hx

theorem filter_head_false {p : Char → Bool} {a : Char} (h : p a = false) (X : List Char) :
    (a :: X).filter p = X.filter p := by
  simp [List.filter_cons, h]

theorem filter_head_true {p : Char → Bool} {a : Char} (h : p a = true) (X : List Char) :
    (a :: X).filter p = a :: X.filter p := by
  simp [List.filter_cons, h]

theorem filter_append_all {p : Char → Bool} {A : List Char} (hA : ∀ c ∈ A, p c = true)
    (X : List Char) : (A ++ X).filter p = A ++ X.filter p := by
  rw [List.filter_append, List.filter_eq_self.mpr hA]

theorem takeWhile_append_all {p : Char → Bool} {A : List Char} (hA : ∀ c ∈ A, p c = true) :
    ∀ X : List Char, (A ++ X).takeWhile p = A ++ X.takeWhile p := by
  induction A with
  | nil => intro X; rfl
  | cons a rest ih =>
    intro X
    rw [List.cons_append, List.takeWhile_cons, if_pos (hA a (List.mem_cons_self a rest)),
      ih (fun c hc => hA c (List.mem_cons_of_mem a hc)) X, List.cons_append]

theorem takeWhile_head_true {p : Char → Bool} {a : Char} (h : p a = true) (X : List Char) :
    (a :: X).takeWhile p = a :: X.takeWhile p := by
  rw [List.takeWhile_cons, if_pos h]

theorem takeWhile_head_false {p : Char → Bool} {a : Char} (h : p a = false) (X : List Char) :
    (a :: X).takeWhile p = [] := by
  rw [List.takeWhile_cons, if_neg (by rw [h]; exact Bool.false_ne_true)]

theorem replaceFirst_append_not {a b : Char} {A : List Char} (hA : ∀ c ∈ A, c ≠ a) :
    ∀ X : List Char, replaceFirstCh a b (A ++ X) = A ++ replaceFirstCh a b X := by
  induction A with
  | nil => intro X; rfl
  | cons x rest ih =>
    intro X
    rw [List.cons_append]
    show (if x = a then b :: (rest ++ X) else x :: replaceFirstCh a b (rest ++ X)) = _
    rw [if_neg (hA x (List.mem_cons_self x rest)),
      ih (fun c hc => hA c (List.mem_cons_of_mem x hc)) X, List.cons_append]

theorem replaceFirst_head {a b : Char} (X : List Char) :
    replaceFirstCh a b (a :: X) = b :: X := by
  unfold replaceFirstCh
  rw [if_pos rfl]

/-- The timestamp transformation chain of generateFilename on the modelled
ISO string: removing dashes and colons, replacing the first T by an
underscore, and cutting at the first dot yields the eight date digits, an
underscore, and the six time digits. -/
theorem timestampOf_eq (now : JsDate) :
    timestampOf now =
      (padDigits 4 now.year ++ padDigits 2 now.month ++ padDigits 2 now.day) ++
      '_' :: (padDigits 2 now.hour ++ padDigits 2 now.minute ++ padDigits 2 now.second) := by
  have hkeep : ∀ c : Char, c.isDigit = true →
      (fun c => decide (c ≠ '-' ∧ c ≠ ':')) c = true := by
    intro c hc
    simp only [decide_eq_true_eq]
    exact ⟨digit_ne (by decide) hc, digit_ne (by decide) hc⟩
  have hneT : ∀ c : Char, c.isDigit = true → c ≠ 'T' := fun c hc => digit_ne (by decide) hc
  have hdot : ∀ c : Char, c.isDigit = true → (fun c => decide (c ≠ '.')) c = true := by
    intro c hc
    simp only [decide_eq_true_eq]
    exact digit_ne (by decide) hc
  have e1 : (toISOStringM now).data =
      padDigits 4 now.year ++ '-' :: padDigits 2 now.month ++ '-' :: padDigits 2 now.day ++
      'T' :: padDigits 2 now.hour ++ ':' :: padDigits 2 now.minute ++
      ':' :: padDigits 2 now.second ++ '.' :: padDigits 3 now.ms ++ ['Z'] := rfl
  unfold timestampOf
  rw [e1]
  simp only [List.append_assoc, List.cons_append]
  rw [filter_append_all (fun c hc => hkeep c (padDigits_all_digits 4 now.year c hc)),
    filter_head_false (by decide),
    filter_append_all (fun c hc => hkeep c (padDigits_all_digits 2 now.month c hc)),
    filter_head_false (by decide),
    filter_append_all (fun c hc => hkeep c (padDigits_all_digits 2 now.day c hc)),
    filter_head_true (by decide),
    filter_append_all (fun c hc => hkeep c (padDigits_all_digits 2 now.hour c hc)),
    filter_head_false (by decide),
    filter_append_all (fun c hc => hkeep c (padDigits_all_digits 2 now.minute c hc)),
    filter_head_false (by decide),
    filter_append_all (fun c hc => hkeep c (padDigits_all_digits 2 now.second c hc)),
    filter_head_true (by decide),
    filter_append_all (fun c hc => hkeep c (padDigits_all_digits 3 now.ms c hc))]
  rw [show (['Z'] : List Char).filter (fun c => decide (c ≠ '-' ∧ c ≠ ':')) = ['Z']
    from by decide]
  rw [replaceFirst_append_not (fun c hc => hneT c (padDigits_all_digits 4 now.year c hc)),
    replaceFirst_append_not (fun c hc => hneT c (padDigits_all_digits 2 now.month c hc)),
    replaceFirst_append_not (fun c hc => hneT c (padDigits_all_digits 2 now.day c hc)),
    replaceFirst_head]
  rw [takeWhile_append_all (fun c hc => hdot c (padDigits_all_digits 4 now.year c hc)),
    takeWhile_append_all (fun c hc => hdot c (padDigits_all_digits 2 now.month c hc)),
    takeWhile_append_all (fun c hc => hdot c (padDigits_all_digits 2 now.day c hc)),
    takeWhile_head_true (by decide),
    takeWhile_append_all (fun c hc => hdot c (padDigits_all_digits 2 now.hour c hc)),
    takeWhile_append_all (fun c hc => hdot c (padDigits_all_digits 2 now.minute c hc)),
    takeWhile_append_all (fun c hc => hdot c (padDigits_all_digits 2 now.second c hc)),
    takeWhile_head_false (by decide)]
  simp [List.append_assoc]

theorem mem_jsTrimL {c : Char} {l : List Char} (h : c ∈ jsTrimL l) : c ∈ l := by
  unfold jsTrimL at h
  have h1 := List.mem_reverse.mp h
  have h2 := (List.dropWhile_sublist isJsSpace).mem h1
  have h3 := List.mem_reverse.mp h2
  exact (List.dropWhile_sublist isJsSpace).mem h3

theorem mem_collapseWsAux {c : Char} :
    ∀ (b : Bool) (l : List Char), c ∈ collapseWsAux b l →
      c = '-' ∨ (c ∈ l ∧ isJsSpace c = false) := by
  intro b l
  induction l generalizing b with
  | nil =>
    intro h
    exact absurd h (List.not_mem_nil c)
  | cons x xs ih =>
    intro h
    unfold collapseWsAux at h
    by_cases hx : isJsSpace x = true
    · rw [if_pos hx] at h
      cases b with
      | true =>
        rw [if_pos rfl] at h
        rcases ih true h with h' | ⟨hmem, hws⟩
        · exact Or.inl h'
        · exact Or.inr ⟨List.mem_cons_of_mem x hmem, hws⟩
      | false =>
        rw [if_neg (by exact Bool.false_ne_true)] at h
        rcases List.mem_cons.mp h with h' | h'
        · exact Or.inl h'
        · rcases ih true h' with h'' | ⟨hmem, hws⟩
          · exact Or.inl h''
          · exact Or.inr ⟨List.mem_cons_of_mem x hmem, hws⟩
    · rw [if_neg hx] at h
      rcases List.mem_cons.mp h with h' | h'
      · subst h'
        exact Or.inr ⟨List.mem_cons_self c xs,
          by cases hcx : isJsSpace c with
             | true => exact absurd hcx hx
             | false => rfl⟩
      · rcases ih false h' with h'' | ⟨hmem, hws⟩
        · exact Or.inl h''
        · exact Or.inr ⟨List.mem_cons_of_mem x hmem, hws⟩

theorem sanitizeSlug_chars (prompt : String) (maxLength : Nat) :
    ∀ c ∈ sanitizeSlug prompt maxLength,
      ('a' ≤ c ∧ c ≤ 'z') ∨ c.isDigit = true ∨ c = '-' := by
  intro c hc
  have h1 := List.mem_of_mem_take hc
  rcases mem_collapseWsAux false _ h1 with h2 | ⟨h2, hws⟩
  · exact Or.inr (Or.inr h2)
  · have h3 := mem_jsTrimL h2
    have h4 := (List.mem_filter.mp h3).2
    unfold isSlugKeep at h4
    rcases Bool.or_eq_true _ _ |>.mp h4 with h5 | h5
    · rcases Bool.or_eq_true _ _ |>.mp h5 with h6 | h6
      · rw [Bool.and_eq_true, decide_eq_true_eq, decide_eq_true_eq] at h6
        exact Or.inl h6
      · exact Or.inr (Or.inl h6)
    · rw [h5] at hws
      exact absurd hws (by decide)

theorem sanitizeExt_chars (extension : String) :
    ∀ c ∈ sanitizeExt extension, ('a' ≤ c ∧ c ≤ 'z') ∨ c.isDigit = true := by
  intro c hc
  unfold sanitizeExt at hc
  by_cases he : ((((extension.data.map lowerCh).dropWhile (fun c => c = '.')).filter
      isAlnumLower).take 10).isEmpty = true
  · rw [if_pos he] at hc
    rcases List.mem_cons.mp hc with h | h
    · subst h; exact Or.inl (by decide)
    rcases List.mem_cons.mp h with h | h
    · subst h; exact Or.inl (by decide)
    rcases List.mem_cons.mp h with h | h
    · subst h; exact Or.inl (by decide)
    · exact absurd h (List.not_mem_nil c)
  · rw [if_neg he] at hc
    have h1 := List.mem_of_mem_take hc
    have h2 := (List.mem_filter.mp h1).2
    unfold isAlnumLower at h2
    rcases Bool.or_eq_true _ _ |>.mp h2 with h3 | h3
    · rw [Bool.and_eq_true, decide_eq_true_eq, decide_eq_true_eq] at h3
      exact Or.inl h3
    · exact Or.inr h3

theorem sanitizeExt_ne_nil (extension : String) : sanitizeExt extension ≠ [] := by
  unfold sanitizeExt
  by_cases he : ((((extension.data.map lowerCh).dropWhile (fun c => c = '.')).filter
      isAlnumLower).take 10).isEmpty = true
  · rw [if_pos he]
    exact fun h => List.noConfusion h
  · rw [if_neg he]
    intro h
    rw [h] at he
    exact he rfl

theorem sanitizeExt_length_le (extension : String) : (sanitizeExt extension).length ≤ 10 := by
  unfold sanitizeExt
  by_cases he : ((((extension.data.map lowerCh).dropWhile (fun c => c = '.')).filter
      isAlnumLower).take 10).isEmpty = true
  · rw [if_pos he]
    decide
  · rw [if_neg he]
    exact List.length_take_le 10 _

/-- C7: generateFilename is total over its string inputs and always
produces a string of the shape timestamp underscore slug dot extension:
under the modelled clock the timestamp is eight date digits, an
underscore and six time digits; the slug is derived from the free text by
lower-casing, stripping everything outside a to z, 0 to 9 and whitespace,
trimming, collapsing whitespace runs to single hyphens, and truncation to
maxLength (so its characters are lower letters, digits and hyphens); the
extension is lower-cased, stripped of leading dots and non-alphanumerics,
truncated to 10 characters and falls back to png when empty; the result
contains no path separators; and the concrete example from the
specification evaluates to 20250119_143022_hello-world.png. -/
theorem C7_generateFilename_spec :
    (∀ (now : JsDate) (prompt extension : String) (maxLength : Nat),
       now.year ≤ 9999 → now.month ≤ 99 → now.day ≤ 99 → now.hour ≤ 99 →
       now.minute ≤ 99 → now.second ≤ 99 →
       ∃ dpart tpart : List Char,
         (generateFilename now prompt extension maxLength).data =
           (dpart ++ '_' :: tpart) ++ '_' :: sanitizeSlug prompt maxLength ++
             '.' :: sanitizeExt extension ∧
         dpart.length = 8 ∧ tpart.length = 6 ∧
         (∀ c ∈ dpart, c.isDigit = true) ∧ (∀ c ∈ tpart, c.isDigit = true) ∧
         (sanitizeSlug prompt maxLength).length ≤ maxLength ∧
         (∀ c ∈ sanitizeSlug prompt maxLength,
           ('a' ≤ c ∧ c ≤ 'z') ∨ c.isDigit = true ∨ c = '-') ∧
         sanitizeExt extension ≠ [] ∧ (sanitizeExt extension).length ≤ 10 ∧
         (∀ c ∈ sanitizeExt extension, ('a' ≤ c ∧ c ≤ 'z') ∨ c.isDigit = true) ∧
         ((((extension.data.map lowerCh).dropWhile (fun c => c = '.')).filter
             isAlnumLower).take 10 = [] → sanitizeExt extension = ['p', 'n', 'g']) ∧
         '/' ∉ (generateFilename now prompt extension maxLength).data ∧
         '\\' ∉ (generateFilename now prompt extension maxLength).data) ∧
    generateFilename ⟨2025, 1, 19, 14, 30, 22, 123⟩ "Hello, World! ✨" "png" 50 =
      "20250119_143022_hello-world.png" := by
  constructor
  · intro now prompt extension maxLength hy hmo hd hh hmi hs
    refine ⟨padDigits 4 now.year ++ padDigits 2 now.month ++ padDigits 2 now.day,
      padDigits 2 now.hour ++ padDigits 2 now.minute ++ padDigits 2 now.second, ?_⟩
    have hdata : (generateFilename now prompt extension maxLength).data =
        timestampOf now ++ '_' :: sanitizeSlug prompt maxLength ++
          '.' :: sanitizeExt extension := rfl
    have hts := timestampOf_eq now
    have hdlen : (padDigits 4 now.year ++ padDigits 2 now.month ++
        padDigits 2 now.day).length = 8 := by
      simp only [List.length_append]
      rw [padDigits_length (by omega) (by omega : now.year < 10 ^ 4),
        padDigits_length (by omega) (by omega : now.month < 10 ^ 2),
        padDigits_length (by omega) (by omega : now.day < 10 ^ 2)]
    have htlen : (padDigits 2 now.hour ++ padDigits 2 now.minute ++
        padDigits 2 now.second).length = 6 := by
      simp only [List.length_append]
      rw [padDigits_length (by omega) (by omega : now.hour < 10 ^ 2),
        padDigits_length (by omega) (by omega : now.minute < 10 ^ 2),
        padDigits_length (by omega) (by omega : now.second < 10 ^ 2)]
    have hddig : ∀ c ∈ padDigits 4 now.year ++ padDigits 2 now.month ++
        padDigits 2 now.day, c.isDigit = true := by
      intro c hc
      rcases List.mem_append.mp hc with h | h
      · rcases List.mem_append.mp h with h' | h'
        · exact padDigits_all_digits _ _ c h'
        · exact padDigits_all_digits _ _ c h'
      · exact padDigits_all_digits _ _ c h
    have htdig : ∀ c ∈ padDigits 2 now.hour ++ padDigits 2 now.minute ++
        padDigits 2 now.second, c.isDigit = true := by
      intro c hc
      rcases List.mem_append.mp hc with h | h
      · rcases List.mem_append.mp h with h' | h'
        · exact padDigits_all_digits _ _ c h'
        · exact padDigits_all_digits _ _ c h'
      · exact padDigits_all_digits _ _ c h
    have hnosep : ∀ sep : Char, sep.isDigit = false → ¬('a' ≤ sep ∧ sep ≤ 'z') →
        sep ≠ '-' → sep ≠ '_' → sep ≠ '.' →
        sep ∉ (generateFilename now prompt extension maxLength).data := by
      intro sep hsd hsaz hsh hsu hsd2 hmem
      rw [hdata, hts] at hmem
      rcases List.mem_append.mp hmem with hm | hm
      · rcases List.mem_append.mp hm with hm | hm
        · rcases List.mem_append.mp hm with hm | hm
          · have hdig := hddig sep hm
            rw [hsd] at hdig
            exact Bool.false_ne_true hdig
          · rcases List.mem_cons.mp hm with hm2 | hm2
            · exact hsu hm2
            · have hdig := htdig sep hm2
              rw [hsd] at hdig
              exact Bool.false_ne_true hdig
        · rcases List.mem_cons.mp hm with hm2 | hm2
          · exact hsu hm2
          · rcases sanitizeSlug_chars prompt maxLength sep hm2 with hk | hk | hk
            · exact hsaz hk
            · rw [hsd] at hk
              exact Bool.false_ne_true hk
            · exact hsh hk
      · rcases List.mem_cons.mp hm with hm2 | hm2
        · exact hsd2 hm2
        · rcases sanitizeExt_chars extension sep hm2 with hk | hk
          · exact hsaz hk
          · rw [hsd] at hk
            exact Bool.false_ne_true hk
    refine ⟨by rw [hdata, hts], hdlen, htlen, hddig, htdig,
      List.length_take_le maxLength _, sanitizeSlug_chars prompt maxLength,
      sanitizeExt_ne_nil extension, sanitizeExt_length_le extension,
      sanitizeExt_chars extension, ?_, ?_, ?_⟩
    · intro he
      unfold sanitizeExt
      rw [if_pos (by rw [he]; rfl)]
    · exact hnosep '/' (by decide) (by decide) (by decide) (by decide) (by decide)
    · exact hnosep '\\' (by decide) (by decide) (by decide) (by decide) (by decide)
  · decide

/-- Witness for C7 at the concrete specification example date. -/
theorem C7_generateFilename_spec_witness :
    ∃ dpart tpart : List Char,
      (generateFilename ⟨2025, 1, 19, 14, 30, 22, 123⟩ "Hello, World! ✨" "png" 50).data =
        (dpart ++ '_' :: tpart) ++ '_' :: sanitizeSlug "Hello, World! ✨" 50 ++
          '.' :: sanitizeExt "png" ∧
      dpart.length = 8 ∧ tpart.length = 6 ∧
      (∀ c ∈ dpart, c.isDigit = true) ∧ (∀ c ∈ tpart, c.isDigit = true) ∧
      (sanitizeSlug "Hello, World! ✨" 50).length ≤ 50 ∧
      (∀ c ∈ sanitizeSlug "Hello, World! ✨" 50,
        ('a' ≤ c ∧ c ≤ 'z') ∨ c.isDigit = true ∨ c = '-') ∧
      sanitizeExt "png" ≠ [] ∧ (sanitizeExt "png").length ≤ 10 ∧
      (∀ c ∈ sanitizeExt "png", ('a' ≤ c ∧ c ≤ 'z') ∨ c.isDigit = true) ∧
      ((((("png" : String).data.map lowerCh).dropWhile (fun c => c = '.')).filter
          isAlnumLower).take 10 = [] → sanitizeExt "png" = ['p', 'n', 'g']) ∧
      '/' ∉ (generateFilename ⟨2025, 1, 19, 14, 30, 22, 123⟩ "Hello, World! ✨" "png" 50).data ∧
      '\\' ∉ (generateFilename ⟨2025, 1, 19, 14, 30, 22, 123⟩ "Hello, World! ✨" "png" 50).data :=
  C7_generateFilename_spec.1 ⟨2025, 1, 19, 14, 30, 22, 123⟩ "Hello, World! ✨" "png" 50
    (by decide) (by decide) (by decide) (by decide) (by decide) (by decide)

end Ideogram
